import Mathlib

/-!
A verification development for the siteBack repository (an Express + MongoDB
backend in `src/db.js` and the server file).  The JavaScript code is shallowly
embedded: the MongoDB collections become lists in a `Store` record, each HTTP
handler becomes a pure function from the request data and the store to a
result and a new store, and JavaScript's numeric coercion and date handling
are modelled over exact rationals and integers.
-/

namespace SiteBack

/-! ## JavaScript numbers

The value of a JavaScript `Number` as far as the handlers inspect it: `NaN`,
the two infinities, or a finite value.  Finite values are modelled as exact
rationals; IEEE-754 rounding and overflow of extreme literals are idealized
away (no claim in this development depends on them). -/

inductive JNum where
  | nan
  | posInf
  | negInf
  | fin (q : ℚ)
deriving DecidableEq, Repr

/-- `Number.isFinite` on the model: only `fin` values are finite. -/
def JNum.finite : JNum → Bool
  | .fin _ => true
  | _ => false

/-- JavaScript whitespace characters recognised by `ToNumber` (the common
`WhiteSpace` and `LineTerminator` code points). -/
def isJsWhitespace (c : Char) : Bool :=
  c = ' ' || c = '\t' || c = '\n' || c = '\r' ||
  c = '\x0b' || c = '\x0c' || c = '\u00A0' || c = '\uFEFF' ||
  c = '\u2028' || c = '\u2029'

/-- Value of a list of decimal digit characters. -/
def digitsToNat (l : List Char) : Nat :=
  l.foldl (fun acc c => 10 * acc + (c.toNat - 48)) 0

/-- Value of a list of digits in the given base (used for `0x`, `0o`, `0b`
literals); each character's value is supplied by `val`. -/
def radixToNat (base : Nat) (val : Char → Nat) (l : List Char) : Nat :=
  l.foldl (fun acc c => base * acc + val c) 0

def hexDigitVal (c : Char) : Nat :=
  if c.isDigit then c.toNat - 48
  else if 'a' ≤ c ∧ c ≤ 'f' then c.toNat - 87
  else c.toNat - 55

def isHexDigitCh (c : Char) : Bool :=
  c.isDigit || ('a' ≤ c && c ≤ 'f') || ('A' ≤ c && c ≤ 'F')

def isOctDigitCh (c : Char) : Bool := '0' ≤ c && c ≤ '7'

def isBinDigitCh (c : Char) : Bool := c = '0' || c = '1'

/-- The exponent part of a `StrDecimalLiteral`: the whole remaining input must
be empty or `e`/`E`, an optional sign, and at least one digit. -/
def parseExpPart : List Char → Option Int
  | [] => some 0
  | c :: rest =>
    if c = 'e' ∨ c = 'E' then
      match rest with
      | '+' :: ds =>
        if ds ≠ [] ∧ ds.all Char.isDigit then some (digitsToNat ds) else none
      | '-' :: ds =>
        if ds ≠ [] ∧ ds.all Char.isDigit then some (-(digitsToNat ds : Int)) else none
      | ds =>
        if ds ≠ [] ∧ ds.all Char.isDigit then some (digitsToNat ds) else none
    else none

/-- An unsigned `StrDecimalLiteral` body: integer digits, an optional `.` with
optional fraction digits, and an optional exponent; at least one digit must be
present before the exponent. -/
def parseDecBody (l : List Char) : Option ℚ :=
  let ip := l.takeWhile Char.isDigit
  let r1 := l.dropWhile Char.isDigit
  let fp := match r1 with
    | '.' :: rest => rest.takeWhile Char.isDigit
    | _ => []
  let r2 := match r1 with
    | '.' :: rest => rest.dropWhile Char.isDigit
    | _ => r1
  if ip = [] ∧ fp = [] then none
  else
    match parseExpPart r2 with
    | none => none
    | some e =>
      some (((digitsToNat ip : ℚ) + (digitsToNat fp : ℚ) / (10 : ℚ) ^ fp.length)
        * (10 : ℚ) ^ (e : ℤ))

/-- A signed decimal literal or `Infinity`, after whitespace trimming. -/
def parseSignedDec (l : List Char) : JNum :=
  let core : List Char → Bool → JNum := fun body neg =>
    if body = "Infinity".toList then (if neg then .negInf else .posInf)
    else
      match parseDecBody body with
      | some q => .fin (if neg then -q else q)
      | none => .nan
  match l with
  | '+' :: rest => core rest false
  | '-' :: rest => core rest true
  | _ => core l false

/-- ECMAScript `ToNumber` applied to a string: trim whitespace, empty ↦ `0`,
`0x`/`0o`/`0b` radix literals (no sign allowed), otherwise a signed decimal
literal or `Infinity`; anything else is `NaN`. -/
def stringToNumber (s : String) : JNum :=
  let t := ((s.toList.dropWhile isJsWhitespace).reverse.dropWhile isJsWhitespace).reverse
  match t with
  | [] => .fin 0
  | '0' :: c :: rest =>
    if c = 'x' ∨ c = 'X' then
      if rest ≠ [] ∧ rest.all isHexDigitCh then .fin (radixToNat 16 hexDigitVal rest) else .nan
    else if c = 'o' ∨ c = 'O' then
      if rest ≠ [] ∧ rest.all isOctDigitCh then .fin (radixToNat 8 hexDigitVal rest) else .nan
    else if c = 'b' ∨ c = 'B' then
      if rest ≠ [] ∧ rest.all isBinDigitCh then .fin (radixToNat 2 hexDigitVal rest) else .nan
    else parseSignedDec t
  | _ => parseSignedDec t

/-- A JSON body value as the handlers can receive it (`req.body` fields and
`undefined` for absent fields; objects and arrays are not needed by any
claim). -/
inductive JValue where
  | undef
  | null
  | bool (b : Bool)
  | num (q : ℚ)
  | str (s : String)
deriving DecidableEq, Repr

/-- ECMAScript `Number(v)` on the modelled values. -/
def jsToNumber : JValue → JNum
  | .undef => .nan
  | .null => .fin 0
  | .bool b => .fin (if b then 1 else 0)
  | .num q => .fin q
  | .str s => stringToNumber s

/-! ## Dates

Timestamps are epoch milliseconds (`Int`), the time value of a JavaScript
`Date`.  The proleptic-Gregorian conversions below follow the standard
era-based civil-calendar algorithms; `/` and `%` on `Int` are Euclidean, so
quotients are floors for the positive divisors used here. -/

def isLeapYear (y : Int) : Bool :=
  (y % 4 = 0 && y % 100 ≠ 0) || y % 400 = 0

def daysInMonth (y : Int) (m : Int) : Int :=
  if m = 2 then (if isLeapYear y then 29 else 28)
  else if m = 4 ∨ m = 6 ∨ m = 9 ∨ m = 11 then 30
  else 31

/-- Days since 1970-01-01 of the civil date `y-m-d`. -/
def daysFromCivil (y m d : Int) : Int :=
  let y2 := if m ≤ 2 then y - 1 else y
  let era := y2 / 400
  let yoe := y2 % 400
  let mp := if m ≤ 2 then m + 9 else m - 3
  let doy := (153 * mp + 2) / 5 + d - 1
  let doe := yoe * 365 + yoe / 4 - yoe / 100 + doy
  era * 146097 + doe - 719468

/-- Civil date `(year, month, day)` of a count of days since 1970-01-01. -/
def civilFromDays (z0 : Int) : Int × Int × Int :=
  let z := z0 + 719468
  let era := z / 146097
  let doe := z % 146097
  let yoe := (doe - doe / 1460 + doe / 36524 - doe / 146096) / 365
  let y := yoe + era * 400
  let doy := doe - (365 * yoe + yoe / 4 - yoe / 100)
  let mp := (5 * doy + 2) / 153
  let d := doy - (153 * mp + 2) / 5 + 1
  let m := if mp < 10 then mp + 3 else mp - 9
  (if m ≤ 2 then y + 1 else y, m, d)

/-- UTC components `(year, month, day, hour, minute, second, millisecond)` of
an epoch-milliseconds time value. -/
def utcParts (t : Int) : Int × Int × Int × Int × Int × Int × Int :=
  let msod := t % 86400000
  let (y, m, d) := civilFromDays (t / 86400000)
  (y, m, d, msod / 3600000, msod / 60000 % 60, msod / 1000 % 60, msod % 1000)

/-- The `w`-digit zero-padded decimal rendering of `n`.  (Every component
`toISOString` pads satisfies `n < 10^w`, where this agrees with JavaScript's
`String(n).padStart(w, '0')`.) -/
def pad (w : Nat) (n : Nat) : String :=
  ⟨((List.range w).reverse).map (fun i => Nat.digitChar (n / 10 ^ i % 10))⟩

/-- The year field of `Date.prototype.toISOString`: four digits for years
0–9999, otherwise the expanded `±YYYYYY` form. -/
def isoYearString (y : Int) : String :=
  if y < 0 then "-" ++ pad 6 (-y).toNat
  else if y ≤ 9999 then pad 4 y.toNat
  else "+" ++ pad 6 y.toNat

/-- `Date.prototype.toISOString` on a time value. -/
def toISOString (t : Int) : String :=
  let (y, m, d, hh, mi, ss, ms) := utcParts t
  isoYearString y ++ "-" ++ pad 2 m.toNat ++ "-" ++ pad 2 d.toNat ++ "T" ++
    pad 2 hh.toNat ++ ":" ++ pad 2 mi.toNat ++ ":" ++ pad 2 ss.toNat ++ "." ++
    pad 3 ms.toNat ++ "Z"

/-- `String.prototype.slice(a, b)` for `0 ≤ a ≤ b`. -/
def jsSlice (s : String) (a b : Nat) : String :=
  ⟨(s.toList.drop a).take (b - a)⟩

/-- Exactly `n` leading decimal digits, returning their value and the rest. -/
def parseDigitsN (n : Nat) (l : List Char) : Option (Nat × List Char) :=
  let ds := l.take n
  if ds.length = n ∧ ds.all Char.isDigit then some (digitsToNat ds, l.drop n) else none

/-- The year of an ECMAScript date-time string: `YYYY` or the expanded signed
`±YYYYYY` form (`-000000` is invalid). -/
def parseIsoYear (l : List Char) : Option (Int × List Char) :=
  match l with
  | '+' :: rest => (parseDigitsN 6 rest).map (fun p => ((p.1 : Int), p.2))
  | '-' :: rest =>
    match parseDigitsN 6 rest with
    | some (y, r) => if y = 0 then none else some ((-(y : Int)), r)
    | none => none
  | _ => (parseDigitsN 4 l).map (fun p => ((p.1 : Int), p.2))

/-- The optional `-MM` and `-DD` of the date part (defaults 01). -/
def parseIsoMonthDay (l : List Char) : Option (Nat × Nat × List Char) :=
  match l with
  | '-' :: rest =>
    match parseDigitsN 2 rest with
    | none => none
    | some (m, r1) =>
      match r1 with
      | '-' :: r2 =>
        match parseDigitsN 2 r2 with
        | none => none
        | some (d, r3) => some (m, d, r3)
      | _ => some (m, 1, r1)
  | _ => some (1, 1, l)

/-- The time part `THH:mm`, `THH:mm:ss` or `THH:mm:ss.sss`, terminated by the
UTC designator `Z` at the end of the string.  (Strings built by the
create-session handler always end in `Z`, so the offset and timezone-less
forms of the grammar can never make such a string valid and are mapped to
`none`.) -/
def parseIsoTime (l : List Char) : Option (Nat × Nat × Nat × Nat) :=
  match l with
  | 'T' :: r0 =>
    match parseDigitsN 2 r0 with
    | none => none
    | some (hh, r1) =>
      match r1 with
      | ':' :: r2 =>
        match parseDigitsN 2 r2 with
        | none => none
        | some (mm, r3) =>
          match r3 with
          | ['Z'] => some (hh, mm, 0, 0)
          | ':' :: r4 =>
            match parseDigitsN 2 r4 with
            | none => none
            | some (ss, r5) =>
              match r5 with
              | ['Z'] => some (hh, mm, ss, 0)
              | '.' :: r6 =>
                match parseDigitsN 3 r6 with
                | some (ms, ['Z']) => some (hh, mm, ss, ms)
                | _ => none
              | _ => none
          | _ => none
      | _ => none
  | _ => none

/-- `Date.parse` on the ECMA-262 date-time string format (the engine-specific
fallback for strings outside the format is not modelled; such strings map to
`none`).  Validates calendar fields — hour 24 is allowed only for `24:00:00` —
and the ±8.64e15 ms range of time values. -/
def jsDateParse (s : String) : Option Int :=
  match parseIsoYear s.toList with
  | none => none
  | some (y, r1) =>
    match parseIsoMonthDay r1 with
    | none => none
    | some (m, d, r2) =>
      match parseIsoTime r2 with
      | none => none
      | some (hh, mi, ss, ms) =>
        if 1 ≤ m ∧ m ≤ 12 ∧ 1 ≤ d ∧ (d : Int) ≤ daysInMonth y m ∧
            (hh ≤ 23 ∨ (hh = 24 ∧ mi = 0 ∧ ss = 0 ∧ ms = 0)) ∧ mi ≤ 59 ∧ ss ≤ 59 then
          let t := daysFromCivil y m d * 86400000 +
            (hh : Int) * 3600000 + (mi : Int) * 60000 + (ss : Int) * 1000 + (ms : Int)
          if t ≤ 8640000000000000 ∧ -8640000000000000 ≤ t then some t else none
        else none

/-! ## Data model

The four MongoDB collections of `db.js` (`quest_users`, `quest_sessions`,
`quest_attempts`, `quest_counters`) as lists of documents; `insertOne`
appends.  Logical session ids and attempt session references are rationals,
since handlers store whatever finite number `Number()` produced from the `:id`
path parameter.  The single counter document `_id: 'sessionId'` is the
`sessionCounter` field (`none` when the document does not exist). -/

structure User where
  userName : String
  isAdmin : Bool
  passwordHash : Option String
  keyHash : String
  createdAt : Int
deriving DecidableEq, Repr

structure Session where
  id : ℚ
  startAt : Int
  description : String
  createdAt : Int
deriving DecidableEq, Repr

structure Attempt where
  sessionId : ℚ
  userName : String
  rate : ℚ
  createdAt : Int
deriving DecidableEq, Repr

structure Store where
  users : List User
  sessions : List Session
  attempts : List Attempt
  sessionCounter : Option ℚ
deriving DecidableEq, Repr

/-- The verified token payload the auth middleware exposes to handlers as
`req.user = { userName: payload.sub, role: payload.role }`. -/
structure AuthUser where
  userName : String
  role : String
deriving DecidableEq, Repr

/-- A signed token is modelled by its payload `{ sub, role }`; the signature
and expiry are the concern of the external `jsonwebtoken` collaborator. -/
structure Token where
  sub : String
  role : String
deriving DecidableEq, Repr

/-- Outcome of a handler: an HTTP status with a success body, or an HTTP
status with the `{ error: <code> }` body. -/
inductive HResult (α : Type) where
  | ok (status : Nat) (body : α)
  | fail (status : Nat) (error : String)
deriving DecidableEq, Repr

/-! ## db.js -/

/-- `hmacKeyHash`: HMAC-SHA256 under the server secret is an external crypto
primitive, abstracted as the parameter `hmac`; the source's
`String(password).trim()` is kept. -/
def hmacKeyHash (hmac : String → String) (password : String) : String :=
  hmac password.trim

/-- `getNextSessionId`: `findOneAndUpdate({_id:'sessionId'}, {$inc:{seq:1}},
{upsert:true, returnDocument:'after'})` — atomically add 1 to `seq`, creating
the document with `seq = 1` (`$inc` on upsert starts from 0), and return the
post-increment value. -/
def getNextSessionId (st : Store) : ℚ × Store :=
  match st.sessionCounter with
  | none => (1, { st with sessionCounter := some 1 })
  | some k => (k + 1, { st with sessionCounter := some (k + 1) })

/-- The fixed seed players of `ensureSeedData`. -/
def seedPlayers : List (String × String) :=
  [("Artur_1", "artur"), ("Antuan", "a"), ("Maria", "m"), ("Ivan", "i")]

/-- The admin block of `ensureSeedData`: insert the admin user unless
`findOne({isAdmin: true, userName: 'admin'})` finds one. -/
def seedAdmin (hmac : String → String) (now : Int) (st : Store) : Store :=
  if st.users.any (fun u => u.isAdmin && u.userName == "admin") then st
  else { st with users := st.users ++
    [{ userName := "admin", isAdmin := true, passwordHash := none,
       keyHash := hmacKeyHash hmac "admin", createdAt := now }] }

/-- One iteration of the player loop of `ensureSeedData`: insert the seed
player unless `findOne({userName})` finds one. -/
def playerStep (hmac : String → String) (now : Int) (st : Store)
    (p : String × String) : Store :=
  if st.users.any (fun u => u.userName == p.1) then st
  else { st with users := st.users ++
    [{ userName := p.1, isAdmin := false, passwordHash := none,
       keyHash := hmacKeyHash hmac p.2, createdAt := now }] }

/-- The player loop of `ensureSeedData` over the fixed seed list. -/
def seedPlayersStep (hmac : String → String) (now : Int) (st : Store) : Store :=
  seedPlayers.foldl (playerStep hmac now) st

/-- The session block of `ensureSeedData`: when `countDocuments()` is zero,
allocate two ids, insert two sessions starting 1 and 2 days from now, and four
attempts on the first session at +5, +10, +15, +20 minutes. -/
def seedSessions (now : Int) (st : Store) : Store :=
  if st.sessions.length = 0 then
    let s1 := now + 24 * 60 * 60 * 1000
    let s2 := now + 2 * 24 * 60 * 60 * 1000
    let (id1, st1) := getNextSessionId st
    let (id2, st2) := getNextSessionId st1
    { st2 with
      sessions := st2.sessions ++
        [{ id := id1, startAt := s1, description := "Текстовое описание сессии 1",
           createdAt := now },
         { id := id2, startAt := s2, description := "Текстовое описание сессии 2",
           createdAt := now }],
      attempts := st2.attempts ++
        [{ sessionId := id1, userName := "Antuan", rate := 98, createdAt := s1 + 5 * 60 * 1000 },
         { sessionId := id1, userName := "Maria", rate := 81, createdAt := s1 + 10 * 60 * 1000 },
         { sessionId := id1, userName := "Ivan", rate := 69, createdAt := s1 + 15 * 60 * 1000 },
         { sessionId := id1, userName := "Artur_1", rate := 78, createdAt := s1 + 20 * 60 * 1000 }] }
  else st

/-- `ensureSeedData`, the three blocks in source order.  The wall-clock
moments of the various `new Date()` calls are collapsed into the single
parameter `now`; no claim distinguishes them. -/
def ensureSeedData (hmac : String → String) (now : Int) (st : Store) : Store :=
  seedSessions now (seedPlayersStep hmac now (seedAdmin hmac now st))

/-! ## Handlers

Each route is modelled from the point where the auth middleware has verified
the bearer token and exposed `req.user`; a route registered with a required
role keeps the middleware's 403 check.  Request body fields that the handlers
test with `!field` are `Option String` (`none` = absent, and the empty string
is the only falsy string). -/

/-- Response body of the register/login routes. -/
structure AuthResp where
  token : Token
  userName : String
  role : String
deriving DecidableEq, Repr

/-- `POST /api/auth/player-register`. -/
def playerRegisterRoute (hmac : String → String) (now : Int) (st : Store)
    (userName password : Option String) : HResult AuthResp × Store :=
  match userName, password with
  | some un, some pw =>
    if un = "" ∨ pw = "" then (.fail 400 "missing_fields", st)
    else if st.users.any (fun u => u.userName == un) then (.fail 409 "username_taken", st)
    else
      (.ok 201 { token := { sub := un, role := "player" }, userName := un, role := "player" },
        { st with users := st.users ++
          [{ userName := un, isAdmin := false, passwordHash := none,
             keyHash := hmacKeyHash hmac pw, createdAt := now }] })
  | _, _ => (.fail 400 "missing_fields", st)

/-- A session as rendered by the list and create endpoints. -/
structure SessionView where
  id : ℚ
  startDate : String
  startTime : String
  description : String
deriving DecidableEq, Repr

/-- The per-document rendering of `GET /api/sessions`:
`toISOString().slice(0,10)` and `.slice(11,16)`.  (`d.description || ''` is
the identity here because `description` is always a string and the empty
string is the only falsy one.) -/
def sessionView (d : Session) : SessionView :=
  { id := d.id,
    startDate := jsSlice (toISOString d.startAt) 0 10,
    startTime := jsSlice (toISOString d.startAt) 11 16,
    description := d.description }

/-- `.sort({ startAt: -1 })`: `a` may precede `b` iff `b.startAt ≤ a.startAt`
(the order of ties is unspecified by MongoDB; the model fixes one). -/
def sessionDescLe (a b : Session) : Prop := b.startAt ≤ a.startAt

instance : DecidableRel sessionDescLe := fun a b =>
  inferInstanceAs (Decidable (b.startAt ≤ a.startAt))

instance : IsTotal Session sessionDescLe :=
  ⟨fun a b => le_total b.startAt a.startAt⟩

instance : IsTrans Session sessionDescLe :=
  ⟨fun _ _ _ h1 h2 => le_trans h2 h1⟩

/-- `GET /api/sessions` (any authenticated role). -/
def listSessionsRoute (st : Store) (_user : AuthUser) : HResult (List SessionView) :=
  .ok 200 ((List.insertionSort sessionDescLe st.sessions).map sessionView)

/-- Request body of `POST /api/sessions`. -/
structure CreateSessionBody where
  startDate : Option String
  startTime : Option String
  description : Option String
deriving DecidableEq, Repr

/-- `POST /api/sessions` (admin only): validate that
`` `${startDate}T${startTime}:00Z` `` parses, allocate an id, insert the
session, and answer 201 echoing the request's `startDate` and `startTime`. -/
def createSessionRoute (st : Store) (now : Int) (user : AuthUser)
    (body : CreateSessionBody) : HResult SessionView × Store :=
  if user.role ≠ "admin" then (.fail 403 "forbidden", st)
  else
    match body.startDate, body.startTime with
    | some sd, some stt =>
      if sd = "" ∨ stt = "" then (.fail 400 "invalid_datetime", st)
      else
        match jsDateParse (sd ++ "T" ++ stt ++ ":00Z") with
        | none => (.fail 400 "invalid_datetime", st)
        | some ts =>
          let (id, st1) := getNextSessionId st
          let desc := body.description.getD ""
          (.ok 201 { id := id, startDate := sd, startTime := stt, description := desc },
            { st1 with sessions := st1.sessions ++
              [{ id := id, startAt := ts, description := desc, createdAt := now }] })
    | _, _ => (.fail 400 "invalid_datetime", st)

/-- `deleteOne({ id })`: remove the first session document matching the id. -/
def deleteOneSession : List Session → ℚ → List Session
  | [], _ => []
  | s :: rest, i => if s.id = i then rest else s :: deleteOneSession rest i

/-- `DELETE /api/sessions/:id` (admin only): coerce the path parameter,
`deleteOne` the session, `deleteMany` the attempts, 204 regardless of whether
anything matched. -/
def deleteSessionRoute (st : Store) (user : AuthUser) (idParam : String) :
    HResult Unit × Store :=
  if user.role ≠ "admin" then (.fail 403 "forbidden", st)
  else
    match stringToNumber idParam with
    | .fin id =>
      (.ok 204 (),
        { st with sessions := deleteOneSession st.sessions id,
                  attempts := st.attempts.filter (fun a => decide ¬(a.sessionId = id)) })
    | _ => (.fail 400 "invalid_id", st)

/-- One row of the leaderboard response. -/
structure LBEntry where
  rank : Nat
  userName : String
  rate : ℚ
deriving DecidableEq, Repr

/-- Code-point-wise lexicographic "less than" on strings (as character
lists), the order MongoDB's `$sort` uses for string keys. -/
def charListLt : List Char → List Char → Bool
  | [], [] => false
  | [], _ :: _ => true
  | _ :: _, [] => false
  | a :: as, b :: bs => if a < b then true else if b < a then false else charListLt as bs

/-- String `≤` as the complement of the string comparator. -/
def strLeb (a b : String) : Bool := ! charListLt b.toList a.toList

theorem charListLt_irrefl : ∀ l, charListLt l l = false
  | [] => rfl
  | a :: as => by simp [charListLt, charListLt_irrefl as]

theorem charListLt_trans : ∀ (a : List Char), ∀ b c, charListLt a b = true →
    charListLt b c = true → charListLt a c = true := by
  intro a
  induction a with
  | nil =>
    intro b c h1 h2
    cases b with
    | nil => exact h2
    | cons y ys => cases c with
      | nil => simp [charListLt] at h2
      | cons z zs => rfl
  | cons x xs ih =>
    intro b c h1 h2
    cases b with
    | nil => simp [charListLt] at h1
    | cons y ys =>
      cases c with
      | nil => simp [charListLt] at h2
      | cons z zs =>
        simp only [charListLt] at h1 h2 ⊢
        rcases lt_trichotomy x y with hxy | hxy | hxy
        · rcases lt_trichotomy y z with hyz | hyz | hyz
          · rw [if_pos (hxy.trans hyz)]
          · subst hyz
            rw [if_pos hxy]
          · rw [if_neg (lt_asymm hyz), if_pos hyz] at h2
            exact absurd h2 (by simp)
        · subst hxy
          rw [if_neg (lt_irrefl x), if_neg (lt_irrefl x)] at h1
          rcases lt_trichotomy x z with hxz | hxz | hxz
          · rw [if_pos hxz]
          · subst hxz
            rw [if_neg (lt_irrefl x), if_neg (lt_irrefl x)] at h2 ⊢
            exact ih ys zs h1 h2
          · rw [if_neg (lt_asymm hxz), if_pos hxz] at h2
            exact absurd h2 (by simp)
        · rw [if_neg (lt_asymm hxy), if_pos hxy] at h1
          exact absurd h1 (by simp)

theorem charListLt_connex : ∀ (a b : List Char), charListLt a b = false →
    charListLt b a = false → a = b := by
  intro a
  induction a with
  | nil =>
    intro b h1 _
    cases b with
    | nil => rfl
    | cons y ys => simp [charListLt] at h1
  | cons x xs ih =>
    intro b h1 h2
    cases b with
    | nil => simp [charListLt] at h2
    | cons y ys =>
      simp only [charListLt] at h1 h2
      rcases lt_trichotomy x y with hxy | hxy | hxy
      · simp [hxy] at h1
      · subst hxy
        simp only [lt_irrefl, if_false] at h1 h2
        rw [ih ys h1 h2]
      · simp [hxy, lt_asymm hxy] at h2

theorem charListLt_asymm (a b : List Char) (h : charListLt a b = true) :
    charListLt b a = false := by
  by_contra hc
  have hba : charListLt b a = true := by
    cases hx : charListLt b a
    · exact absurd hx hc
    · rfl
  have := charListLt_trans a b a h hba
  rw [charListLt_irrefl] at this
  exact Bool.false_ne_true this

theorem string_eq_of_toList_eq {a b : String} (h : a.toList = b.toList) : a = b := by
  cases a; cases b
  simpa [String.toList] using congrArg String.mk h

/-- `$sort: { rate: -1, _id: 1 }` on the `$group` output (`_id` is the user
name): descending best rate, ties by ascending name. -/
def lbLe (a b : String × ℚ) : Prop :=
  b.2 < a.2 ∨ (a.2 = b.2 ∧ strLeb a.1 b.1 = true)

instance : DecidableRel lbLe := fun a b =>
  inferInstanceAs (Decidable (b.2 < a.2 ∨ (a.2 = b.2 ∧ strLeb a.1 b.1 = true)))

theorem bool_false_of_not_true {b : Bool} (h : ¬ b = true) : b = false := by
  cases b
  · rfl
  · exact absurd rfl h

instance : IsTotal (String × ℚ) lbLe :=
  ⟨fun a b => by
    unfold lbLe
    rcases lt_trichotomy a.2 b.2 with h | h | h
    · exact .inr (.inl h)
    · by_cases hl : charListLt b.1.toList a.1.toList = true
      · refine .inr (.inr ⟨h.symm, ?_⟩)
        unfold strLeb
        rw [charListLt_asymm _ _ hl]
        rfl
      · refine .inl (.inr ⟨h, ?_⟩)
        unfold strLeb
        rw [bool_false_of_not_true hl]
        rfl
    · exact .inl (.inl h)⟩

instance : IsTrans (String × ℚ) lbLe :=
  ⟨fun a b c h1 h2 => by
    unfold lbLe at *
    rcases h1 with h1 | ⟨e1, n1⟩
    · rcases h2 with h2 | ⟨e2, _⟩
      · exact .inl (h2.trans h1)
      · exact .inl (e2 ▸ h1)
    · rcases h2 with h2 | ⟨e2, n2⟩
      · exact .inl (e1 ▸ h2)
      · refine .inr ⟨e1.trans e2, ?_⟩
        simp only [strLeb, Bool.not_eq_true'] at n1 n2 ⊢
        by_contra hca
        have hca' : charListLt c.1.toList a.1.toList = true := by
          cases hx : charListLt c.1.toList a.1.toList
          · exact absurd hx hca
          · rfl
        cases hbc : charListLt b.1.toList c.1.toList with
        | false =>
          have hbc' := charListLt_connex _ _ hbc n2
          rw [string_eq_of_toList_eq hbc'] at n1
          rw [n1] at hca'
          exact Bool.false_ne_true hca'
        | true =>
          have hx := charListLt_trans _ _ _ hbc hca'
          rw [n1] at hx
          exact Bool.false_ne_true hx⟩

/-- `$max: '$rate'` over the (nonempty) rate list of one group. -/
def maxRate : List ℚ → ℚ
  | [] => 0
  | r :: rs => rs.foldl max r

/-- `$group: { _id: '$userName', rate: { $max: '$rate' } }`: one pair per
distinct user name of the matched attempts, carrying that user's best rate.
(MongoDB emits groups in unspecified order; the following `$sort` by the
unique `_id` makes the pipeline's output order-independent, so the model picks
first-occurrence order here.) -/
def groupMaxRates (atts : List Attempt) : List (String × ℚ) :=
  ((atts.map Attempt.userName).dedup).map
    (fun n => (n, maxRate ((atts.filter (fun a => decide (a.userName = n))).map Attempt.rate)))

/-- `docs.map((d, idx) => ({ rank: idx + 1, ... }))`, starting at `i`. -/
def withRanks : Nat → List (String × ℚ) → List LBEntry
  | _, [] => []
  | i, p :: ps => { rank := i, userName := p.1, rate := p.2 } :: withRanks (i + 1) ps

/-- The leaderboard pipeline for one session id. -/
def leaderboardOf (atts : List Attempt) (sid : ℚ) : List LBEntry :=
  withRanks 1 (List.insertionSort lbLe
    (groupMaxRates (atts.filter (fun a => decide (a.sessionId = sid)))))

/-- `GET /api/sessions/:id/leaderboard` (any authenticated role). -/
def leaderboardRoute (st : Store) (_user : AuthUser) (idParam : String) :
    HResult (List LBEntry) :=
  match stringToNumber idParam with
  | .fin id => .ok 200 (leaderboardOf st.attempts id)
  | _ => .fail 400 "invalid_id"

/-- `.sort({ createdAt: -1 })` for the attempt list. -/
def attemptDescLe (a b : Attempt) : Prop := b.createdAt ≤ a.createdAt

instance : DecidableRel attemptDescLe := fun a b =>
  inferInstanceAs (Decidable (b.createdAt ≤ a.createdAt))

/-- `GET /api/sessions/:id/attempts?userName=...` (any authenticated role;
non-admins may only query their own name). -/
def getSessionAttemptsRoute (st : Store) (user : AuthUser) (idParam : String)
    (userNameQ : Option String) : HResult (List Attempt) :=
  match stringToNumber idParam with
  | .fin id =>
    match userNameQ with
    | none => .fail 400 "missing_userName"
    | some un =>
      if un = "" then .fail 400 "missing_userName"
      else if user.role ≠ "admin" ∧ user.userName ≠ un then .fail 403 "forbidden"
      else .ok 200 (List.insertionSort attemptDescLe
        (st.attempts.filter (fun a => decide (a.sessionId = id ∧ a.userName = un))))
  | _ => .fail 400 "invalid_id"

/-- `POST /api/sessions/:id/attempts` (player role only): coerce the path
parameter, coerce `rate` with `Number()`, reject unless
`Number.isFinite(r) && 1 <= r && r <= 100`, then insert the attempt for the
authenticated user. -/
def postSessionAttempt (st : Store) (now : Int) (user : AuthUser)
    (idParam : String) (rate : JValue) : HResult Bool × Store :=
  if user.role ≠ "player" then (.fail 403 "forbidden", st)
  else
    match stringToNumber idParam with
    | .fin id =>
      match jsToNumber rate with
      | .fin r =>
        if r < 1 ∨ 100 < r then (.fail 400 "invalid_rate", st)
        else
          (.ok 201 true,
            { st with attempts := st.attempts ++
              [{ sessionId := id, userName := user.userName, rate := r, createdAt := now }] })
      | _ => (.fail 400 "invalid_rate", st)
    | _ => (.fail 400 "invalid_id", st)

/-- Iterated calls of the sequence allocator, in call order. -/
def allocCalls : Nat → Store → List ℚ × Store
  | 0, st => ([], st)
  | n + 1, st =>
    let (v, st1) := getNextSessionId st
    let (vs, st2) := allocCalls n st1
    (v :: vs, st2)

/-- A store with no documents at all. -/
def emptyStore : Store :=
  { users := [], sessions := [], attempts := [], sessionCounter := none }

/-! ## Theorems -/

theorem allocCalls_from (n : Nat) : ∀ (st : Store) (k : ℚ), st.sessionCounter = some k →
    (allocCalls n st).1 = (List.range n).map (fun i : ℕ => k + (i : ℚ) + 1) ∧
    (allocCalls n st).2.sessionCounter = some (k + n) := by
  induction n with
  | zero =>
    intro st k h
    refine ⟨rfl, ?_⟩
    show st.sessionCounter = _
    rw [h]
    norm_num
  | succ n ih =>
    intro st k h
    have hg : getNextSessionId st = (k + 1, { st with sessionCounter := some (k + 1) }) := by
      unfold getNextSessionId; rw [h]
    obtain ⟨h1, h2⟩ := ih { st with sessionCounter := some (k + 1) } (k + 1) rfl
    refine ⟨?_, ?_⟩
    · show ((allocCalls (n + 1) st).1 = _)
      simp only [allocCalls, hg, h1]
      rw [List.range_succ_eq_map, List.map_cons, List.map_map]
      have hhd : (k : ℚ) + ((0 : ℕ) : ℚ) + 1 = k + 1 := by norm_num
      have htl : List.map ((fun i : ℕ => k + (i : ℚ) + 1) ∘ Nat.succ) (List.range n)
          = List.map (fun i : ℕ => k + 1 + (i : ℚ) + 1) (List.range n) := by
        apply List.map_congr_left
        intro i _
        simp only [Function.comp_apply]
        push_cast
        ring
      rw [hhd, htl]
    · show ((allocCalls (n + 1) st).2.sessionCounter = _)
      simp only [allocCalls, hg, h2]
      congr 1
      push_cast
      ring

/-- C3: `getNextSessionId` returns the post-increment counter value, creating
the counter with `seq = 1` when absent; the first call returns 1, and any
sequence of `n` calls starting from counter value `k` returns exactly
`k+1, …, k+n`, strictly increasing and never reused. -/
theorem C3_sequence_allocator :
    (∀ st : Store, st.sessionCounter = none →
      (getNextSessionId st).1 = 1 ∧ (getNextSessionId st).2.sessionCounter = some 1) ∧
    (∀ (st : Store) (k : ℚ) (n : Nat), st.sessionCounter = some k →
      (allocCalls n st).1 = (List.range n).map (fun i : ℕ => k + (i : ℚ) + 1) ∧
      (allocCalls n st).2.sessionCounter = some (k + n) ∧
      (allocCalls n st).1.Pairwise (· < ·)) := by
  constructor
  · intro st h
    unfold getNextSessionId
    rw [h]
    exact ⟨rfl, rfl⟩
  · intro st k n h
    obtain ⟨h1, h2⟩ := allocCalls_from n st k h
    refine ⟨h1, h2, ?_⟩
    rw [h1]
    refine List.Pairwise.map _ ?_ (List.pairwise_lt_range n)
    intro a b hab
    have : (a : ℚ) < b := by exact_mod_cast hab
    linarith

/-! Values of `stringToNumber` at the concrete literals the claims use.  The
structural parsing reduces definitionally; only the final rational arithmetic
needs `norm_num`. -/

theorem stringToNumber_lit_1 : stringToNumber "1" = .fin 1 := by
  rw [show stringToNumber "1" =
    .fin ((((1:ℕ) : ℚ) + ((0:ℕ) : ℚ) / (10 : ℚ) ^ (0:ℕ)) * (10 : ℚ) ^ ((0 : ℤ))) from rfl]
  norm_num

theorem stringToNumber_lit_5 : stringToNumber "5" = .fin 5 := by
  rw [show stringToNumber "5" =
    .fin ((((5:ℕ) : ℚ) + ((0:ℕ) : ℚ) / (10 : ℚ) ^ (0:ℕ)) * (10 : ℚ) ^ ((0 : ℤ))) from rfl]
  norm_num

theorem stringToNumber_lit_1p5 : stringToNumber "1.5" = .fin (3/2) := by
  rw [show stringToNumber "1.5" =
    .fin ((((1:ℕ) : ℚ) + ((5:ℕ) : ℚ) / (10 : ℚ) ^ (1:ℕ)) * (10 : ℚ) ^ ((0 : ℤ))) from rfl]
  norm_num

theorem stringToNumber_lit_1e3 : stringToNumber "1e3" = .fin 1000 := by
  rw [show stringToNumber "1e3" =
    .fin ((((1:ℕ) : ℚ) + ((0:ℕ) : ℚ) / (10 : ℚ) ^ (0:ℕ)) * (10 : ℚ) ^ (((3:ℕ) : ℤ))) from rfl]
  norm_num

theorem stringToNumber_lit_x : stringToNumber "x" = .nan := rfl

/-- Witness for C3 at concrete stores: a fresh counter yields 1, and three
calls from counter value 5 yield 6, 7, 8. -/
theorem C3_sequence_allocator_witness :
    (getNextSessionId emptyStore).1 = 1 ∧
    (allocCalls 3 { emptyStore with sessionCounter := some 5 }).1 = [6, 7, 8] := by
  constructor
  · exact (C3_sequence_allocator.1 emptyStore rfl).1
  · have h := (C3_sequence_allocator.2 { emptyStore with sessionCounter := some 5 } 5 3 rfl).1
    rw [h]
    norm_num [List.range_succ]

theorem postSessionAttempt_eval (st : Store) (now : Int) (user : AuthUser)
    (idParam : String) (rate : JValue) (id r : ℚ)
    (hrole : user.role = "player") (hid : stringToNumber idParam = .fin id)
    (hr : jsToNumber rate = .fin r) :
    postSessionAttempt st now user idParam rate =
      if r < 1 ∨ 100 < r then (.fail 400 "invalid_rate", st)
      else (.ok 201 true, { st with attempts := st.attempts ++
        [{ sessionId := id, userName := user.userName, rate := r, createdAt := now }] }) := by
  unfold postSessionAttempt
  rw [hrole]
  rw [if_neg (by simp)]
  rw [hid]
  simp only []
  rw [hr]

theorem postSessionAttempt_eval_bad (st : Store) (now : Int) (user : AuthUser)
    (idParam : String) (rate : JValue) (id : ℚ)
    (hrole : user.role = "player") (hid : stringToNumber idParam = .fin id)
    (hr : jsToNumber rate = .nan ∨ jsToNumber rate = .posInf ∨ jsToNumber rate = .negInf) :
    postSessionAttempt st now user idParam rate = (.fail 400 "invalid_rate", st) := by
  unfold postSessionAttempt
  rw [hrole]
  rw [if_neg (by simp)]
  rw [hid]
  simp only []
  rcases hr with h | h | h <;> rw [h]

/-- C1 (as stated, refuted): the claim that every accepted rate is an integer
fails — a player submitting `rate = 1.5` on a valid session id gets 201 and
the stored rate 3/2, which is not an integer. -/
theorem C1_counterexample :
    (postSessionAttempt emptyStore 0 { userName := "P", role := "player" } "1"
        (.num (3/2))).1 = .ok 201 true ∧
    ((postSessionAttempt emptyStore 0 { userName := "P", role := "player" } "1"
        (.num (3/2))).2.attempts.map Attempt.rate) = [3/2] ∧
    ∀ n : ℤ, ((n : ℚ)) ≠ 3/2 := by
  have h := postSessionAttempt_eval emptyStore 0 { userName := "P", role := "player" } "1"
    (.num (3/2)) 1 (3/2) rfl stringToNumber_lit_1 rfl
  rw [if_neg (by norm_num)] at h
  refine ⟨by rw [h], by rw [h]; rfl, ?_⟩
  intro n hn
  have h2 : (2 : ℚ) * n = 3 := by rw [hn]; norm_num
  have h3 : (2 * n : ℤ) = 3 := by exact_mod_cast h2
  omega

/-- C1 (corrected): for an authenticated player submitting an attempt on a
valid session id, the rate must coerce via `Number()` to a finite value in
[1,100] inclusive; in-range values are stored as submitted and answered 201,
anything else fails 400 `invalid_rate`.  Integrality is not checked, so
non-integer in-range rates are accepted too. -/
theorem C1_rate_validation (st : Store) (now : Int) (user : AuthUser) (idParam : String)
    (rate : JValue) (id : ℚ) (hrole : user.role = "player")
    (hid : stringToNumber idParam = .fin id) :
    (∀ r : ℚ, jsToNumber rate = .fin r → 1 ≤ r → r ≤ 100 →
      postSessionAttempt st now user idParam rate =
        (.ok 201 true, { st with attempts := st.attempts ++
          [{ sessionId := id, userName := user.userName, rate := r, createdAt := now }] })) ∧
    ((∀ r : ℚ, jsToNumber rate = .fin r → r < 1 ∨ 100 < r) →
      postSessionAttempt st now user idParam rate = (.fail 400 "invalid_rate", st)) := by
  constructor
  · intro r hr h1 h100
    rw [postSessionAttempt_eval st now user idParam rate id r hrole hid hr]
    rw [if_neg (by push_neg; exact ⟨h1, h100⟩)]
  · intro hbad
    cases hjn : jsToNumber rate with
    | fin r =>
      rw [postSessionAttempt_eval st now user idParam rate id r hrole hid hjn]
      rw [if_pos (hbad r hjn)]
    | nan => exact postSessionAttempt_eval_bad st now user idParam rate id hrole hid (.inl hjn)
    | posInf =>
      exact postSessionAttempt_eval_bad st now user idParam rate id hrole hid (.inr (.inl hjn))
    | negInf =>
      exact postSessionAttempt_eval_bad st now user idParam rate id hrole hid (.inr (.inr hjn))

/-- Witness for C1 at concrete requests (session id "1", player "P"): rates 1
and 100 are accepted with 201; rates 0, 101 and "x" fail 400 invalid_rate. -/
theorem C1_rate_validation_witness :
    (postSessionAttempt emptyStore 0 { userName := "P", role := "player" } "1"
        (.num 1)).1 = .ok 201 true ∧
    (postSessionAttempt emptyStore 0 { userName := "P", role := "player" } "1"
        (.num 100)).1 = .ok 201 true ∧
    postSessionAttempt emptyStore 0 { userName := "P", role := "player" } "1"
        (.num 0) = (.fail 400 "invalid_rate", emptyStore) ∧
    postSessionAttempt emptyStore 0 { userName := "P", role := "player" } "1"
        (.num 101) = (.fail 400 "invalid_rate", emptyStore) ∧
    postSessionAttempt emptyStore 0 { userName := "P", role := "player" } "1"
        (.str "x") = (.fail 400 "invalid_rate", emptyStore) := by
  refine ⟨?_, ?_, ?_, ?_, ?_⟩
  · rw [(C1_rate_validation emptyStore 0 { userName := "P", role := "player" } "1"
      (.num 1) 1 rfl stringToNumber_lit_1).1 1 rfl (by norm_num) (by norm_num)]
  · rw [(C1_rate_validation emptyStore 0 { userName := "P", role := "player" } "1"
      (.num 100) 1 rfl stringToNumber_lit_1).1 100 rfl (by norm_num) (by norm_num)]
  · refine (C1_rate_validation emptyStore 0 { userName := "P", role := "player" } "1"
      (.num 0) 1 rfl stringToNumber_lit_1).2 ?_
    intro r hr
    have : (0 : ℚ) = r := by
      have := hr
      injection this
    rw [← this]
    norm_num
  · refine (C1_rate_validation emptyStore 0 { userName := "P", role := "player" } "1"
      (.num 101) 1 rfl stringToNumber_lit_1).2 ?_
    intro r hr
    have : (101 : ℚ) = r := by
      have := hr
      injection this
    rw [← this]
    norm_num
  · refine (C1_rate_validation emptyStore 0 { userName := "P", role := "player" } "1"
      (.str "x") 1 rfl stringToNumber_lit_1).2 ?_
    intro r hr
    rw [show jsToNumber (.str "x") = JNum.nan from rfl] at hr
    exact absurd hr (by simp)

theorem jnum_not_finite {j : JNum} (h : j.finite = false) :
    j = .nan ∨ j = .posInf ∨ j = .negInf := by
  cases j <;> simp_all [JNum.finite]

theorem deleteSessionRoute_eval (st : Store) (user : AuthUser) (idParam : String) (id : ℚ)
    (hrole : user.role = "admin") (hid : stringToNumber idParam = .fin id) :
    deleteSessionRoute st user idParam =
      (.ok 204 (),
        { st with sessions := deleteOneSession st.sessions id,
                  attempts := st.attempts.filter (fun a => decide ¬(a.sessionId = id)) }) := by
  unfold deleteSessionRoute
  rw [hrole, if_neg (by simp), hid]

theorem deleteSessionRoute_eval_bad (st : Store) (user : AuthUser) (idParam : String)
    (hrole : user.role = "admin") (hnf : (stringToNumber idParam).finite = false) :
    deleteSessionRoute st user idParam = (.fail 400 "invalid_id", st) := by
  unfold deleteSessionRoute
  rw [hrole, if_neg (by simp)]
  rcases jnum_not_finite hnf with h | h | h <;> rw [h]

theorem leaderboardRoute_eval (st : Store) (user : AuthUser) (idParam : String) (id : ℚ)
    (hid : stringToNumber idParam = .fin id) :
    leaderboardRoute st user idParam = .ok 200 (leaderboardOf st.attempts id) := by
  unfold leaderboardRoute
  rw [hid]

theorem leaderboardRoute_eval_bad (st : Store) (user : AuthUser) (idParam : String)
    (hnf : (stringToNumber idParam).finite = false) :
    leaderboardRoute st user idParam = .fail 400 "invalid_id" := by
  unfold leaderboardRoute
  rcases jnum_not_finite hnf with h | h | h <;> rw [h]

theorem getSessionAttemptsRoute_eval (st : Store) (user : AuthUser) (idParam : String)
    (id : ℚ) (un : String) (hid : stringToNumber idParam = .fin id) (hun : un ≠ "") :
    getSessionAttemptsRoute st user idParam (some un) =
      if user.role ≠ "admin" ∧ user.userName ≠ un then .fail 403 "forbidden"
      else .ok 200 (List.insertionSort attemptDescLe
        (st.attempts.filter (fun a => decide (a.sessionId = id ∧ a.userName = un)))) := by
  unfold getSessionAttemptsRoute
  rw [hid]
  simp only []
  rw [if_neg hun]

theorem getSessionAttemptsRoute_eval_bad (st : Store) (user : AuthUser) (idParam : String)
    (unQ : Option String) (hnf : (stringToNumber idParam).finite = false) :
    getSessionAttemptsRoute st user idParam unQ = .fail 400 "invalid_id" := by
  unfold getSessionAttemptsRoute
  rcases jnum_not_finite hnf with h | h | h <;> rw [h]

theorem postSessionAttempt_eval_badid (st : Store) (now : Int) (user : AuthUser)
    (idParam : String) (rate : JValue)
    (hrole : user.role = "player") (hnf : (stringToNumber idParam).finite = false) :
    postSessionAttempt st now user idParam rate = (.fail 400 "invalid_id", st) := by
  unfold postSessionAttempt
  rw [hrole, if_neg (by simp)]
  rcases jnum_not_finite hnf with h | h | h <;> rw [h]

/-- C10: every handler taking a session id path parameter (delete session,
leaderboard, list attempts, submit attempt) coerces it with `Number()` and
fails 400 `invalid_id` exactly when the result is not finite; any finite
numeric string — including "1.5" and "1e3" — passes the check and is used
as-is for document matching. -/
theorem C10_id_coercion (st : Store) (now : Int) (userA userP userAny : AuthUser)
    (idParam : String) (unQ : Option String) (rate : JValue)
    (hA : userA.role = "admin") (hP : userP.role = "player") :
    ((deleteSessionRoute st userA idParam).1 = .fail 400 "invalid_id" ↔
      (stringToNumber idParam).finite = false) ∧
    (leaderboardRoute st userAny idParam = .fail 400 "invalid_id" ↔
      (stringToNumber idParam).finite = false) ∧
    (getSessionAttemptsRoute st userAny idParam unQ = .fail 400 "invalid_id" ↔
      (stringToNumber idParam).finite = false) ∧
    ((postSessionAttempt st now userP idParam rate).1 = .fail 400 "invalid_id" ↔
      (stringToNumber idParam).finite = false) ∧
    (∀ id : ℚ, stringToNumber idParam = .fin id →
      leaderboardRoute st userAny idParam = .ok 200 (leaderboardOf st.attempts id)) ∧
    stringToNumber "1.5" = .fin (3/2) ∧
    stringToNumber "1e3" = .fin 1000 := by
  refine ⟨?_, ?_, ?_, ?_, ?_, stringToNumber_lit_1p5, stringToNumber_lit_1e3⟩
  · constructor
    · intro hres
      cases hs : stringToNumber idParam with
      | fin id =>
        rw [deleteSessionRoute_eval st userA idParam id hA hs] at hres
        exact absurd hres (by simp)
      | nan => rfl
      | posInf => rfl
      | negInf => rfl
    · intro hnf
      rw [deleteSessionRoute_eval_bad st userA idParam hA hnf]
  · constructor
    · intro hres
      cases hs : stringToNumber idParam with
      | fin id =>
        rw [leaderboardRoute_eval st userAny idParam id hs] at hres
        exact absurd hres (by simp)
      | nan => rfl
      | posInf => rfl
      | negInf => rfl
    · intro hnf
      rw [leaderboardRoute_eval_bad st userAny idParam hnf]
  · constructor
    · intro hres
      cases hs : stringToNumber idParam with
      | fin id =>
        rcases unQ with _ | un
        · rw [show getSessionAttemptsRoute st userAny idParam none =
              (match stringToNumber idParam with
                | .fin _ => HResult.fail 400 "missing_userName"
                | _ => .fail 400 "invalid_id") from rfl, hs] at hres
          exact absurd hres (by simp)
        · by_cases hun : un = ""
          · subst hun
            rw [show getSessionAttemptsRoute st userAny idParam (some "") =
                (match stringToNumber idParam with
                  | .fin _ => HResult.fail 400 "missing_userName"
                  | _ => .fail 400 "invalid_id") from rfl, hs] at hres
            exact absurd hres (by simp)
          · rw [getSessionAttemptsRoute_eval st userAny idParam id un hs hun] at hres
            by_cases hc : userAny.role ≠ "admin" ∧ userAny.userName ≠ un
            · rw [if_pos hc] at hres
              exact absurd hres (by simp)
            · rw [if_neg hc] at hres
              exact absurd hres (by simp)
      | nan => rfl
      | posInf => rfl
      | negInf => rfl
    · intro hnf
      rw [getSessionAttemptsRoute_eval_bad st userAny idParam unQ hnf]
  · constructor
    · intro hres
      cases hs : stringToNumber idParam with
      | fin id =>
        cases hjn : jsToNumber rate with
        | fin r =>
          rw [postSessionAttempt_eval st now userP idParam rate id r hP hs hjn] at hres
          by_cases hr : r < 1 ∨ 100 < r
          · rw [if_pos hr] at hres
            exact absurd hres (by simp)
          · rw [if_neg hr] at hres
            exact absurd hres (by simp)
        | nan =>
          rw [postSessionAttempt_eval_bad st now userP idParam rate id hP hs (.inl hjn)] at hres
          exact absurd hres (by simp)
        | posInf =>
          rw [postSessionAttempt_eval_bad st now userP idParam rate id hP hs
            (.inr (.inl hjn))] at hres
          exact absurd hres (by simp)
        | negInf =>
          rw [postSessionAttempt_eval_bad st now userP idParam rate id hP hs
            (.inr (.inr hjn))] at hres
          exact absurd hres (by simp)
      | nan => rfl
      | posInf => rfl
      | negInf => rfl
    · intro hnf
      rw [postSessionAttempt_eval_badid st now userP idParam rate hP hnf]
  · intro id hid
    exact leaderboardRoute_eval st userAny idParam id hid

/-- Witness for C10: the concrete id strings "1.5" (accepted, matched as 3/2)
and "abc" (rejected 400 invalid_id) on concrete users. -/
theorem C10_id_coercion_witness :
    leaderboardRoute emptyStore { userName := "u", role := "player" } "1.5" =
      .ok 200 (leaderboardOf ([] : List Attempt) (3/2)) ∧
    (deleteSessionRoute emptyStore { userName := "a", role := "admin" } "abc").1 =
      .fail 400 "invalid_id" := by
  have t := C10_id_coercion emptyStore 0 { userName := "a", role := "admin" }
    { userName := "u", role := "player" } { userName := "u", role := "player" }
    "1.5" none (.num 1) rfl rfl
  have t2 := C10_id_coercion emptyStore 0 { userName := "a", role := "admin" }
    { userName := "u", role := "player" } { userName := "u", role := "player" }
    "abc" none (.num 1) rfl rfl
  constructor
  · exact t.2.2.2.2.1 (3/2) stringToNumber_lit_1p5
  · rw [t2.1.2 rfl]

/-- C9: player registration fails 400 missing_fields when userName or
password is absent; fails 409 username_taken (leaving the user set unchanged)
when the userName already exists — in particular registering the same name
twice gives 409 on the second call; otherwise it creates the user as a
non-admin with the hashed password and answers 201 with a token for that
userName and role player. -/
theorem C9_player_register (hmac : String → String) (now : Int) (st : Store)
    (un pw : String) (hun : un ≠ "") (hpw : pw ≠ "") :
    (∀ p : Option String,
      playerRegisterRoute hmac now st none p = (.fail 400 "missing_fields", st)) ∧
    (∀ u : Option String,
      playerRegisterRoute hmac now st u none = (.fail 400 "missing_fields", st)) ∧
    (st.users.any (fun u => u.userName == un) = true →
      playerRegisterRoute hmac now st (some un) (some pw) = (.fail 409 "username_taken", st)) ∧
    (st.users.any (fun u => u.userName == un) = false →
      playerRegisterRoute hmac now st (some un) (some pw) =
        (.ok 201 { token := { sub := un, role := "player" }, userName := un, role := "player" },
         { st with users := st.users ++
           [{ userName := un, isAdmin := false, passwordHash := none,
              keyHash := hmacKeyHash hmac pw, createdAt := now }] })) ∧
    (st.users.any (fun u => u.userName == un) = false →
      (playerRegisterRoute hmac now
        (playerRegisterRoute hmac now st (some un) (some pw)).2 (some un) (some pw)).1 =
        .fail 409 "username_taken") := by
  have taken_eq : ∀ st' : Store, st'.users.any (fun u => u.userName == un) = true →
      playerRegisterRoute hmac now st' (some un) (some pw) =
        (.fail 409 "username_taken", st') := by
    intro st' h
    unfold playerRegisterRoute
    simp only []
    rw [if_neg (by rintro (h' | h') <;> [exact hun h'; exact hpw h'])]
    rw [if_pos h]
  have reg_eq : st.users.any (fun u => u.userName == un) = false →
      playerRegisterRoute hmac now st (some un) (some pw) =
        (.ok 201 { token := { sub := un, role := "player" }, userName := un, role := "player" },
         { st with users := st.users ++
           [{ userName := un, isAdmin := false, passwordHash := none,
              keyHash := hmacKeyHash hmac pw, createdAt := now }] }) := by
    intro h
    unfold playerRegisterRoute
    simp only []
    rw [if_neg (by rintro (h' | h') <;> [exact hun h'; exact hpw h'])]
    rw [if_neg (by rw [h]; exact Bool.false_ne_true)]
  refine ⟨?_, ?_, taken_eq st, reg_eq, ?_⟩
  · intro p
    cases p <;> rfl
  · intro u
    cases u <;> rfl
  · intro h
    rw [reg_eq h]
    rw [taken_eq _ (by simp [List.any_append])]

/-- Witness for C9: registering "alice" on an empty store succeeds with a
player token; a missing password fails 400; re-registering "alice" fails
409. -/
theorem C9_player_register_witness :
    playerRegisterRoute (fun _ => "h") 0 emptyStore (some "alice") none =
      (.fail 400 "missing_fields", emptyStore) ∧
    (playerRegisterRoute (fun _ => "h") 0 emptyStore (some "alice") (some "pw")).1 =
      .ok 201 { token := { sub := "alice", role := "player" },
                userName := "alice", role := "player" } ∧
    (playerRegisterRoute (fun _ => "h") 0
      (playerRegisterRoute (fun _ => "h") 0 emptyStore (some "alice") (some "pw")).2
      (some "alice") (some "pw")).1 = .fail 409 "username_taken" := by
  have t := C9_player_register (fun _ => "h") 0 emptyStore "alice" "pw"
    (by decide) (by decide)
  refine ⟨t.2.1 none, ?_, t.2.2.2.2 rfl⟩
  rw [t.2.2.2.1 rfl]

/-- C6: on GET /api/sessions/:id/attempts with a userName query and a valid
id, a player whose token subject differs from the requested userName gets
403 forbidden; any caller asking for their own userName succeeds; an admin
succeeds for any userName. -/
theorem C6_attempts_access (st : Store) (user : AuthUser) (idParam : String) (id : ℚ)
    (un : String) (hid : stringToNumber idParam = .fin id) (hun : un ≠ "") :
    (user.role = "player" → user.userName ≠ un →
      getSessionAttemptsRoute st user idParam (some un) = .fail 403 "forbidden") ∧
    (user.userName = un →
      getSessionAttemptsRoute st user idParam (some un) =
        .ok 200 (List.insertionSort attemptDescLe
          (st.attempts.filter (fun a => decide (a.sessionId = id ∧ a.userName = un))))) ∧
    (user.role = "admin" →
      getSessionAttemptsRoute st user idParam (some un) =
        .ok 200 (List.insertionSort attemptDescLe
          (st.attempts.filter (fun a => decide (a.sessionId = id ∧ a.userName = un))))) := by
  rw [getSessionAttemptsRoute_eval st user idParam id un hid hun]
  refine ⟨?_, ?_, ?_⟩
  · intro hrole hne
    rw [if_pos ⟨by rw [hrole]; decide, hne⟩]
  · intro heq
    rw [if_neg (fun hc => hc.2 heq)]
  · intro hrole
    rw [if_neg (fun hc => hc.1 hrole)]

/-- Witness for C6 at session id "1" on the empty store: player alice asking
for bob's attempts gets 403; alice asking for her own succeeds; an admin
asking for bob's succeeds. -/
theorem C6_attempts_access_witness :
    getSessionAttemptsRoute emptyStore { userName := "alice", role := "player" } "1"
      (some "bob") = .fail 403 "forbidden" ∧
    getSessionAttemptsRoute emptyStore { userName := "alice", role := "player" } "1"
      (some "alice") = .ok 200 [] ∧
    getSessionAttemptsRoute emptyStore { userName := "adm", role := "admin" } "1"
      (some "bob") = .ok 200 [] := by
  refine ⟨?_, ?_, ?_⟩
  · exact (C6_attempts_access emptyStore { userName := "alice", role := "player" } "1" 1
      "bob" stringToNumber_lit_1 (by decide)).1 rfl (by decide)
  · rw [(C6_attempts_access emptyStore { userName := "alice", role := "player" } "1" 1
      "alice" stringToNumber_lit_1 (by decide)).2.1 rfl]
    rfl
  · rw [(C6_attempts_access emptyStore { userName := "adm", role := "admin" } "1" 1
      "bob" stringToNumber_lit_1 (by decide)).2.2 rfl]
    rfl

/-! Helper lemmas for the leaderboard pipeline. -/

theorem withRanks_map_pair (i : Nat) (l : List (String × ℚ)) :
    (withRanks i l).map (fun e => (e.userName, e.rate)) = l := by
  induction l generalizing i with
  | nil => rfl
  | cons p ps ih => simp [withRanks, ih]

theorem withRanks_length (i : Nat) (l : List (String × ℚ)) :
    (withRanks i l).length = l.length := by
  induction l generalizing i with
  | nil => rfl
  | cons p ps ih => simp [withRanks, ih]

theorem withRanks_map_rank (i : Nat) (l : List (String × ℚ)) :
    (withRanks i l).map LBEntry.rank = List.range' i l.length := by
  induction l generalizing i with
  | nil => rfl
  | cons p ps ih => simp [withRanks, ih, List.range']

theorem withRanks_pairwise (R : (String × ℚ) → (String × ℚ) → Prop) (i : Nat)
    (l : List (String × ℚ)) (h : l.Pairwise R) :
    (withRanks i l).Pairwise (fun x y => R (x.userName, x.rate) (y.userName, y.rate)) := by
  induction l generalizing i with
  | nil => exact List.Pairwise.nil
  | cons p ps ih =>
    rcases List.pairwise_cons.1 h with ⟨hp, hps⟩
    refine List.Pairwise.cons ?_ (ih (i + 1) hps)
    intro y hy
    have hm : (y.userName, y.rate) ∈ ps := by
      have := List.mem_map_of_mem (fun e : LBEntry => (e.userName, e.rate)) hy
      rwa [withRanks_map_pair] at this
    exact hp _ hm

theorem foldl_max_mem (rs : List ℚ) : ∀ r : ℚ, rs.foldl max r ∈ r :: rs := by
  induction rs with
  | nil => intro r; simp
  | cons a as ih =>
    intro r
    have h := ih (max r a)
    rw [List.foldl_cons]
    rcases List.mem_cons.1 h with hm | hm
    · rcases max_choice r a with hc | hc
      · rw [hm, hc]
        exact List.mem_cons_self _ _
      · rw [hm, hc]
        exact List.mem_cons_of_mem _ (List.mem_cons_self _ _)
    · exact List.mem_cons_of_mem _ (List.mem_cons_of_mem _ hm)

theorem foldl_max_le (rs : List ℚ) : ∀ r x : ℚ, x ∈ r :: rs → x ≤ rs.foldl max r := by
  induction rs with
  | nil =>
    intro r x hx
    simp at hx
    simp [hx]
  | cons a as ih =>
    intro r x hx
    rw [List.foldl_cons]
    rcases List.mem_cons.1 hx with h | h
    · subst h
      exact le_trans (le_max_left x a) (ih (max x a) (max x a) (List.mem_cons_self _ _))
    · rcases List.mem_cons.1 h with h2 | h2
      · subst h2
        exact le_trans (le_max_right r x) (ih (max r x) (max r x) (List.mem_cons_self _ _))
      · exact ih (max r a) x (List.mem_cons_of_mem _ h2)

theorem maxRate_spec (l : List ℚ) (hne : l ≠ []) :
    maxRate l ∈ l ∧ ∀ x ∈ l, x ≤ maxRate l := by
  cases l with
  | nil => exact absurd rfl hne
  | cons r rs => exact ⟨foldl_max_mem rs r, fun x hx => foldl_max_le rs r x hx⟩

theorem groupMaxRates_fst (atts : List Attempt) :
    (groupMaxRates atts).map Prod.fst = (atts.map Attempt.userName).dedup := by
  unfold groupMaxRates
  rw [List.map_map]
  have hco : (Prod.fst ∘ fun n : String =>
      (n, maxRate ((atts.filter (fun a => decide (a.userName = n))).map Attempt.rate))) =
      fun n : String => n := rfl
  rw [hco]
  exact List.map_id _

theorem groupMaxRates_mem (atts : List Attempt) {p : String × ℚ}
    (hp : p ∈ groupMaxRates atts) :
    p.1 ∈ (atts.map Attempt.userName).dedup ∧
    p.2 = maxRate ((atts.filter (fun a => decide (a.userName = p.1))).map Attempt.rate) := by
  unfold groupMaxRates at hp
  rcases List.mem_map.1 hp with ⟨n, hn, he⟩
  cases he
  exact ⟨hn, rfl⟩

theorem rates_ne_nil (atts : List Attempt) {n : String}
    (hn : n ∈ (atts.map Attempt.userName).dedup) :
    (atts.filter (fun a => decide (a.userName = n))).map Attempt.rate ≠ [] := by
  rw [List.mem_dedup] at hn
  rcases List.mem_map.1 hn with ⟨a, ha, hae⟩
  intro hmap
  have haf : a ∈ atts.filter (fun a => decide (a.userName = n)) :=
    List.mem_filter.2 ⟨ha, by simp [hae]⟩
  have hmem := List.mem_map_of_mem Attempt.rate haf
  rw [hmap] at hmem
  exact absurd hmem (List.not_mem_nil _)

theorem ranked_names_perm (l : List Attempt) :
    List.Perm ((withRanks 1 (List.insertionSort lbLe (groupMaxRates l))).map LBEntry.userName)
      ((l.map Attempt.userName).dedup) := by
  have hpair := withRanks_map_pair 1 (List.insertionSort lbLe (groupMaxRates l))
  have hname : (withRanks 1 (List.insertionSort lbLe (groupMaxRates l))).map LBEntry.userName
      = (List.insertionSort lbLe (groupMaxRates l)).map Prod.fst := by
    have h2 := congrArg (List.map Prod.fst) hpair
    rw [List.map_map] at h2
    exact h2
  rw [hname]
  have hp := (List.perm_insertionSort lbLe (groupMaxRates l)).map Prod.fst
  refine hp.trans ?_
  rw [groupMaxRates_fst]

theorem ranked_rates (l : List Attempt) :
    ∀ e ∈ withRanks 1 (List.insertionSort lbLe (groupMaxRates l)),
      e.rate ∈ ((l.filter (fun a => decide (a.userName = e.userName))).map Attempt.rate) ∧
      ∀ r ∈ ((l.filter (fun a => decide (a.userName = e.userName))).map Attempt.rate),
        r ≤ e.rate := by
  intro e he
  have hpe : (e.userName, e.rate) ∈ List.insertionSort lbLe (groupMaxRates l) := by
    have := List.mem_map_of_mem (fun e : LBEntry => (e.userName, e.rate)) he
    rwa [withRanks_map_pair] at this
  have hpg : (e.userName, e.rate) ∈ groupMaxRates l :=
    (List.mem_insertionSort lbLe).1 hpe
  obtain ⟨hn, hr⟩ := groupMaxRates_mem l hpg
  have hn' : e.userName ∈ (l.map Attempt.userName).dedup := hn
  have hr' : e.rate =
      maxRate ((l.filter (fun a => decide (a.userName = e.userName))).map Attempt.rate) := hr
  have hne := rates_ne_nil l hn'
  have hms := maxRate_spec _ hne
  exact ⟨hr' ▸ hms.1, fun r hrr => hr' ▸ hms.2 r hrr⟩

theorem ranked_sorted (l : List Attempt) :
    (withRanks 1 (List.insertionSort lbLe (groupMaxRates l))).Pairwise (fun x y =>
      y.rate < x.rate ∨
        (x.rate = y.rate ∧ charListLt x.userName.toList y.userName.toList = true)) := by
  have hsorted : (List.insertionSort lbLe (groupMaxRates l)).Pairwise lbLe :=
    List.sorted_insertionSort lbLe (groupMaxRates l)
  have hnod : ((List.insertionSort lbLe (groupMaxRates l)).map Prod.fst).Nodup := by
    have hg : ((groupMaxRates l).map Prod.fst).Nodup := by
      rw [groupMaxRates_fst]
      exact List.nodup_dedup _
    exact (((List.perm_insertionSort lbLe (groupMaxRates l)).map Prod.fst).nodup_iff).2 hg
  have hpne : (List.insertionSort lbLe (groupMaxRates l)).Pairwise (fun p q => p.1 ≠ q.1) :=
    List.pairwise_map.1 hnod
  have hstrict : (List.insertionSort lbLe (groupMaxRates l)).Pairwise (fun p q =>
      q.2 < p.2 ∨ (p.2 = q.2 ∧ charListLt p.1.toList q.1.toList = true)) := by
    refine (hsorted.and hpne).imp ?_
    intro p q hc
    rcases hc with ⟨hle, hne⟩
    rcases hle with h | ⟨heq, hsle⟩
    · exact .inl h
    · refine .inr ⟨heq, ?_⟩
      have hql : charListLt q.1.toList p.1.toList = false := by
        simpa [strLeb, Bool.not_eq_true'] using hsle
      cases hx : charListLt p.1.toList q.1.toList
      · exact absurd (string_eq_of_toList_eq (charListLt_connex _ _ hx hql)) hne
      · rfl
  exact withRanks_pairwise _ 1 _ hstrict

theorem ranked_ranks (l : List Attempt) :
    (withRanks 1 (List.insertionSort lbLe (groupMaxRates l))).map LBEntry.rank =
      List.range' 1 (withRanks 1 (List.insertionSort lbLe (groupMaxRates l))).length := by
  rw [withRanks_map_rank, withRanks_length]

/-- The attempt set of the claim's concrete leaderboard example. -/
def c2ExampleAttempts : List Attempt :=
  [{ sessionId := 1, userName := "A", rate := 90, createdAt := 0 },
   { sessionId := 1, userName := "A", rate := 70, createdAt := 0 },
   { sessionId := 1, userName := "B", rate := 90, createdAt := 0 },
   { sessionId := 1, userName := "C", rate := 50, createdAt := 0 }]

/-- C2: the leaderboard pipeline groups a session's attempts by userName
(one row per distinct name, in some order), gives each user their maximum
rate, orders rows by descending rate with ties broken by ascending userName,
and assigns ranks 1..N positionally; on the example attempts
(A,90),(A,70),(B,90),(C,50) it produces [(1,A,90),(2,B,90),(3,C,50)]. -/
theorem C2_leaderboard (atts : List Attempt) (sid : ℚ) :
    List.Perm ((leaderboardOf atts sid).map LBEntry.userName)
      (((atts.filter (fun a => decide (a.sessionId = sid))).map Attempt.userName).dedup) ∧
    (∀ e ∈ leaderboardOf atts sid,
      e.rate ∈ (((atts.filter (fun a => decide (a.sessionId = sid))).filter
          (fun a => decide (a.userName = e.userName))).map Attempt.rate) ∧
      ∀ r ∈ (((atts.filter (fun a => decide (a.sessionId = sid))).filter
          (fun a => decide (a.userName = e.userName))).map Attempt.rate), r ≤ e.rate) ∧
    (leaderboardOf atts sid).Pairwise (fun x y =>
      y.rate < x.rate ∨
        (x.rate = y.rate ∧ charListLt x.userName.toList y.userName.toList = true)) ∧
    (leaderboardOf atts sid).map LBEntry.rank =
      List.range' 1 (leaderboardOf atts sid).length ∧
    leaderboardOf c2ExampleAttempts 1 =
      [{ rank := 1, userName := "A", rate := 90 },
       { rank := 2, userName := "B", rate := 90 },
       { rank := 3, userName := "C", rate := 50 }] := by
  refine ⟨ranked_names_perm _, ranked_rates _, ranked_sorted _, ranked_ranks _, ?_⟩
  decide

/-- Witness for C2: the concrete example conjunct, extracted by applying the
theorem at the example attempts and session id 1. -/
theorem C2_leaderboard_witness :
    leaderboardOf c2ExampleAttempts 1 =
      [{ rank := 1, userName := "A", rate := 90 },
       { rank := 2, userName := "B", rate := 90 },
       { rank := 3, userName := "C", rate := 50 }] :=
  (C2_leaderboard c2ExampleAttempts 1).2.2.2.2

theorem deleteOneSession_eq_filter (l : List Session) (id : ℚ)
    (h : l.countP (fun s => decide (s.id = id)) ≤ 1) :
    deleteOneSession l id = l.filter (fun s => decide ¬(s.id = id)) := by
  induction l with
  | nil => rfl
  | cons s rest ih =>
    rw [List.countP_cons] at h
    by_cases hs : s.id = id
    · have hcount : rest.countP (fun s => decide (s.id = id)) = 0 := by
        rw [if_pos (decide_eq_true hs)] at h
        omega
      have hall : ∀ x ∈ rest, ¬(x.id = id) := by
        intro x hx
        have := List.countP_eq_zero.1 hcount x hx
        simpa using this
      rw [show deleteOneSession (s :: rest) id = rest from by
        unfold deleteOneSession; rw [if_pos hs]]
      rw [List.filter_cons]
      rw [if_neg (by simp [hs])]
      exact (List.filter_eq_self.2 (fun a ha => by simp [hall a ha])).symm
    · have h' : rest.countP (fun s => decide (s.id = id)) ≤ 1 := by
        rw [if_neg (fun hc => hs (of_decide_eq_true hc))] at h
        omega
      rw [deleteOneSession, if_neg hs, List.filter_cons, if_pos (by simp [hs]), ih h']

theorem leaderboardOf_filtered_out (atts : List Attempt) (id : ℚ) :
    leaderboardOf (atts.filter (fun a => decide ¬(a.sessionId = id))) id = [] := by
  unfold leaderboardOf
  have hempty : (atts.filter (fun a => decide ¬(a.sessionId = id))).filter
      (fun a => decide (a.sessionId = id)) = [] := by
    rw [List.filter_filter]
    apply List.filter_eq_nil_iff.2
    intro a _
    simp
  rw [hempty]
  rfl

/-- C4: deleting a session by logical id (with ids unique, per the data-model
invariant) removes exactly the session with that id and every attempt whose
sessionId equals it, leaves users, the counter, and all other sessions and
attempts unchanged, answers 204 even when nothing matched, and a subsequent
leaderboard for that id is empty. -/
theorem C4_delete_session (st : Store) (user : AuthUser) (idParam : String) (id : ℚ)
    (hrole : user.role = "admin") (hid : stringToNumber idParam = .fin id)
    (huniq : st.sessions.countP (fun s => decide (s.id = id)) ≤ 1) :
    (deleteSessionRoute st user idParam).1 = .ok 204 () ∧
    (deleteSessionRoute st user idParam).2.sessions =
      st.sessions.filter (fun s => decide ¬(s.id = id)) ∧
    (deleteSessionRoute st user idParam).2.attempts =
      st.attempts.filter (fun a => decide ¬(a.sessionId = id)) ∧
    (deleteSessionRoute st user idParam).2.users = st.users ∧
    (deleteSessionRoute st user idParam).2.sessionCounter = st.sessionCounter ∧
    leaderboardOf (deleteSessionRoute st user idParam).2.attempts id = [] := by
  rw [deleteSessionRoute_eval st user idParam id hrole hid]
  exact ⟨rfl, deleteOneSession_eq_filter st.sessions id huniq, rfl, rfl, rfl,
    leaderboardOf_filtered_out st.attempts id⟩

/-- The store for the C4 witness: sessions 5 and 6, one attempt on each. -/
def c4Store : Store :=
  { users := [],
    sessions := [{ id := 5, startAt := 0, description := "", createdAt := 0 },
                 { id := 6, startAt := 0, description := "", createdAt := 0 }],
    attempts := [{ sessionId := 5, userName := "A", rate := 50, createdAt := 0 },
                 { sessionId := 6, userName := "B", rate := 60, createdAt := 0 }],
    sessionCounter := some 6 }

/-- Witness for C4: deleting session 5 from `c4Store` answers 204, leaves
exactly session 6 and its attempt, preserves users and the counter, and the
leaderboard of session 5 is then empty; deleting the absent id 7 also answers
204. -/
theorem C4_delete_session_witness :
    (deleteSessionRoute c4Store { userName := "a", role := "admin" } "5").1 = .ok 204 () ∧
    (deleteSessionRoute c4Store { userName := "a", role := "admin" } "5").2.sessions =
      [{ id := 6, startAt := 0, description := "", createdAt := 0 }] ∧
    (deleteSessionRoute c4Store { userName := "a", role := "admin" } "5").2.attempts =
      [{ sessionId := 6, userName := "B", rate := 60, createdAt := 0 }] ∧
    leaderboardOf (deleteSessionRoute c4Store
      { userName := "a", role := "admin" } "5").2.attempts 5 = [] ∧
    (deleteSessionRoute c4Store { userName := "a", role := "admin" } "7").1 = .ok 204 () := by
  have t := C4_delete_session c4Store { userName := "a", role := "admin" } "5" 5
    rfl stringToNumber_lit_5 (by decide)
  have t7 := C4_delete_session c4Store { userName := "a", role := "admin" } "7" 7
    rfl (by
      rw [show stringToNumber "7" =
        .fin ((((7:ℕ) : ℚ) + ((0:ℕ) : ℚ) / (10 : ℚ) ^ (0:ℕ)) * (10 : ℚ) ^ ((0 : ℤ))) from rfl]
      norm_num) (by decide)
  refine ⟨t.1, ?_, ?_, t.2.2.2.2.2, t7.1⟩
  · rw [t.2.1]
    decide
  · rw [t.2.2.1]
    decide

/-- C7 (as stated, refuted): the 201 body does not render the stored instant
— it echoes the request fields.  `startDate="2024-01-05"`, `startTime="24:00"`
is a valid ECMA-262 date-time (hour 24 is midnight of the next day), so the
session is stored at 2024-01-06T00:00Z, whose UTC rendition in the list
endpoint's shape is ("2024-01-06", "00:00"); the create response still says
("2024-01-05", "24:00"). -/
theorem C7_counterexample :
    (createSessionRoute emptyStore 0 { userName := "adm", role := "admin" }
        { startDate := some "2024-01-05", startTime := some "24:00", description := none }).1
      = .ok 201 { id := 1, startDate := "2024-01-05", startTime := "24:00",
                  description := "" } ∧
    (createSessionRoute emptyStore 0 { userName := "adm", role := "admin" }
        { startDate := some "2024-01-05", startTime := some "24:00",
          description := none }).2.sessions
      = [{ id := 1, startAt := 1704499200000, description := "", createdAt := 0 }] ∧
    jsSlice (toISOString 1704499200000) 0 10 = "2024-01-06" ∧
    jsSlice (toISOString 1704499200000) 11 16 = "00:00" ∧
    ("2024-01-05" : String) ≠ "2024-01-06" ∧ ("24:00" : String) ≠ "00:00" := by
  exact ⟨rfl, rfl, rfl, rfl, by decide, by decide⟩

/-- C7 (corrected): for an admin create-session request, a missing or empty
`startDate`/`startTime`, or one whose combined string does not parse as a
date-time, fails 400 invalid_datetime and stores nothing; otherwise the
session is persisted under the next allocator id with the parsed instant, and
the 201 body echoes the request's `startDate` and `startTime` verbatim (these
equal the UTC YYYY-MM-DD / HH:MM rendition of the stored instant only when
the input is already in that canonical form). -/
theorem C7_create_session (st : Store) (now : Int) (user : AuthUser)
    (body : CreateSessionBody) (hrole : user.role = "admin") :
    (body.startDate = none ∨ body.startTime = none →
      createSessionRoute st now user body = (.fail 400 "invalid_datetime", st)) ∧
    (∀ sd stt, body.startDate = some sd → body.startTime = some stt →
      (sd = "" ∨ stt = "" →
        createSessionRoute st now user body = (.fail 400 "invalid_datetime", st)) ∧
      (sd ≠ "" → stt ≠ "" →
        (jsDateParse (sd ++ "T" ++ stt ++ ":00Z") = none →
          createSessionRoute st now user body = (.fail 400 "invalid_datetime", st)) ∧
        (∀ ts, jsDateParse (sd ++ "T" ++ stt ++ ":00Z") = some ts →
          createSessionRoute st now user body =
            (.ok 201 { id := (getNextSessionId st).1, startDate := sd, startTime := stt,
                       description := body.description.getD "" },
             { (getNextSessionId st).2 with
                 sessions := (getNextSessionId st).2.sessions ++
                   [{ id := (getNextSessionId st).1, startAt := ts,
                      description := body.description.getD "", createdAt := now }] })))) := by
  constructor
  · intro hmiss
    unfold createSessionRoute
    rw [if_neg (by simp [hrole])]
    rcases hmiss with hm | hm
    · rw [hm]
    · rw [hm]
      rcases hbd : body.startDate with _ | x <;> rfl
  · intro sd stt hsd hstt
    constructor
    · intro hemp
      unfold createSessionRoute
      rw [if_neg (by simp [hrole]), hsd, hstt]
      simp only []
      rw [if_pos hemp]
    · intro hsd' hstt'
      constructor
      · intro hparse
        unfold createSessionRoute
        rw [if_neg (by simp [hrole]), hsd, hstt]
        simp only []
        rw [if_neg (by rintro (h | h) <;> [exact hsd' h; exact hstt' h])]
        rw [hparse]
      · intro ts hparse
        unfold createSessionRoute
        rw [if_neg (by simp [hrole]), hsd, hstt]
        simp only []
        rw [if_neg (by rintro (h | h) <;> [exact hsd' h; exact hstt' h])]
        rw [hparse]

/-- Witness for C7: the canonical request ("2024-01-05", "12:30") on the empty
store is created with id 1 at instant 1704457800000 (2024-01-05T12:30Z), and
startTime "99:99" fails 400. -/
theorem C7_create_session_witness :
    createSessionRoute emptyStore 0 { userName := "adm", role := "admin" }
        { startDate := some "2024-01-05", startTime := some "12:30", description := none } =
      (.ok 201 { id := 1, startDate := "2024-01-05", startTime := "12:30",
                 description := "" },
       { users := [],
         sessions := [{ id := 1, startAt := 1704457800000, description := "", createdAt := 0 }],
         attempts := [],
         sessionCounter := some 1 }) ∧
    createSessionRoute emptyStore 0 { userName := "adm", role := "admin" }
        { startDate := some "2024-01-05", startTime := some "99:99", description := none } =
      (.fail 400 "invalid_datetime", emptyStore) := by
  have t := C7_create_session emptyStore 0 { userName := "adm", role := "admin" }
    { startDate := some "2024-01-05", startTime := some "12:30", description := none } rfl
  have t2 := C7_create_session emptyStore 0 { userName := "adm", role := "admin" }
    { startDate := some "2024-01-05", startTime := some "99:99", description := none } rfl
  constructor
  · rw [((t.2 "2024-01-05" "12:30" rfl rfl).2 (by decide) (by decide)).2 1704457800000
      (by decide)]
    rfl
  · exact ((t2.2 "2024-01-05" "99:99" rfl rfl).2 (by decide) (by decide)).1 (by decide)

/-! Helper lemmas for seeding (C5). -/

theorem any_append_left {α : Type} (q : α → Bool) {l l' : List α} (h : l.any q = true) :
    (l ++ l').any q = true := by
  rw [List.any_append, h, Bool.true_or]

theorem playerStep_users_extend (hmac : String → String) (now : Int) (st : Store)
    (p : String × String) : ∃ l, (playerStep hmac now st p).users = st.users ++ l := by
  unfold playerStep
  split
  · exact ⟨[], (List.append_nil _).symm⟩
  · exact ⟨_, rfl⟩

theorem foldPlayers_users_extend (hmac : String → String) (now : Int) :
    ∀ (ps : List (String × String)) (st : Store),
    ∃ l, (ps.foldl (playerStep hmac now) st).users = st.users ++ l := by
  intro ps
  induction ps with
  | nil => intro st; exact ⟨[], (List.append_nil _).symm⟩
  | cons q qs ih =>
    intro st
    rw [List.foldl_cons]
    obtain ⟨l1, h1⟩ := playerStep_users_extend hmac now st q
    obtain ⟨l2, h2⟩ := ih (playerStep hmac now st q)
    exact ⟨l1 ++ l2, by rw [h2, h1, List.append_assoc]⟩

theorem foldPlayers_frame (hmac : String → String) (now : Int) :
    ∀ (ps : List (String × String)) (st : Store),
    (ps.foldl (playerStep hmac now) st).sessions = st.sessions ∧
    (ps.foldl (playerStep hmac now) st).attempts = st.attempts ∧
    (ps.foldl (playerStep hmac now) st).sessionCounter = st.sessionCounter := by
  intro ps
  induction ps with
  | nil => intro st; exact ⟨rfl, rfl, rfl⟩
  | cons q qs ih =>
    intro st
    rw [List.foldl_cons]
    obtain ⟨h1, h2, h3⟩ := ih (playerStep hmac now st q)
    have hq : (playerStep hmac now st q).sessions = st.sessions ∧
        (playerStep hmac now st q).attempts = st.attempts ∧
        (playerStep hmac now st q).sessionCounter = st.sessionCounter := by
      unfold playerStep
      split <;> exact ⟨rfl, rfl, rfl⟩
    exact ⟨h1.trans hq.1, h2.trans hq.2.1, h3.trans hq.2.2⟩

theorem foldPlayers_any_preserved (hmac : String → String) (now : Int) (q : User → Bool)
    (ps : List (String × String)) (st : Store) (h : st.users.any q = true) :
    (ps.foldl (playerStep hmac now) st).users.any q = true := by
  obtain ⟨l, hl⟩ := foldPlayers_users_extend hmac now ps st
  rw [hl]
  exact any_append_left q h

theorem playerStep_establishes (hmac : String → String) (now : Int) (st : Store)
    (p : String × String) :
    (playerStep hmac now st p).users.any (fun u => u.userName == p.1) = true := by
  unfold playerStep
  split
  · assumption
  · rw [List.any_append]
    simp

theorem foldPlayers_establishes (hmac : String → String) (now : Int) :
    ∀ (ps : List (String × String)) (st : Store) (p : String × String), p ∈ ps →
    (ps.foldl (playerStep hmac now) st).users.any (fun u => u.userName == p.1) = true := by
  intro ps
  induction ps with
  | nil => intro st p hp; exact absurd hp (List.not_mem_nil _)
  | cons q qs ih =>
    intro st p hp
    rw [List.foldl_cons]
    rcases List.mem_cons.1 hp with rfl | hp'
    · exact foldPlayers_any_preserved hmac now _ qs _ (playerStep_establishes hmac now st p)
    · exact ih _ p hp'

theorem playerStep_id_of_present (hmac : String → String) (now : Int) (st : Store)
    (p : String × String) (h : st.users.any (fun u => u.userName == p.1) = true) :
    playerStep hmac now st p = st := by
  unfold playerStep
  rw [if_pos h]

theorem foldPlayers_id_of_present (hmac : String → String) (now : Int) :
    ∀ (ps : List (String × String)) (st : Store),
    (∀ p ∈ ps, st.users.any (fun u => u.userName == p.1) = true) →
    ps.foldl (playerStep hmac now) st = st := by
  intro ps
  induction ps with
  | nil => intro st _; rfl
  | cons q qs ih =>
    intro st h
    rw [List.foldl_cons, playerStep_id_of_present hmac now st q (h q (List.mem_cons_self _ _))]
    exact ih st (fun p hp => h p (List.mem_cons_of_mem _ hp))

theorem seedAdmin_establishes (hmac : String → String) (now : Int) (st : Store) :
    (seedAdmin hmac now st).users.any (fun u => u.isAdmin && u.userName == "admin") = true := by
  unfold seedAdmin
  split
  · assumption
  · rw [List.any_append]
    simp

theorem seedAdmin_id_of_present (hmac : String → String) (now : Int) (st : Store)
    (h : st.users.any (fun u => u.isAdmin && u.userName == "admin") = true) :
    seedAdmin hmac now st = st := by
  unfold seedAdmin
  rw [if_pos h]

theorem seedAdmin_frame (hmac : String → String) (now : Int) (st : Store) :
    (seedAdmin hmac now st).sessions = st.sessions ∧
    (seedAdmin hmac now st).attempts = st.attempts ∧
    (seedAdmin hmac now st).sessionCounter = st.sessionCounter := by
  unfold seedAdmin
  split <;> exact ⟨rfl, rfl, rfl⟩

theorem getNextSessionId_frame (st : Store) :
    (getNextSessionId st).2.users = st.users ∧
    (getNextSessionId st).2.sessions = st.sessions ∧
    (getNextSessionId st).2.attempts = st.attempts := by
  unfold getNextSessionId
  cases st.sessionCounter <;> exact ⟨rfl, rfl, rfl⟩

theorem sessions_append_ne_nil (l : List Session) (a b : Session) : l ++ [a, b] ≠ [] := by
  simp

theorem seedSessions_users (now : Int) (st : Store) :
    (seedSessions now st).users = st.users := by
  unfold seedSessions
  split
  · exact ((getNextSessionId_frame _).1).trans ((getNextSessionId_frame _).1)
  · rfl

theorem seedSessions_nonempty (now : Int) (st : Store) :
    (seedSessions now st).sessions ≠ [] := by
  unfold seedSessions
  split
  · exact sessions_append_ne_nil _ _ _
  · rename_i h
    intro hc
    exact h (by rw [hc]; rfl)

theorem seedSessions_id_of_nonempty (now : Int) (st : Store) (h : st.sessions ≠ []) :
    seedSessions now st = st := by
  unfold seedSessions
  rw [if_neg (fun hc => h (List.length_eq_zero.1 hc))]

theorem seedPlayers_fst_ne_admin {p : String × String} (hp : p ∈ seedPlayers) :
    p.1 ≠ "admin" := by
  simp only [seedPlayers, List.mem_cons, List.not_mem_nil, or_false] at hp
  rcases hp with rfl | rfl | rfl | rfl <;> decide

theorem seedAdmin_countP_ne (hmac : String → String) (now : Int) (st : Store)
    (n : String) (hn : n ≠ "admin") :
    (seedAdmin hmac now st).users.countP (fun u => u.userName == n) =
      st.users.countP (fun u => u.userName == n) ∧
    (seedAdmin hmac now st).users.any (fun u => u.userName == n) =
      st.users.any (fun u => u.userName == n) := by
  unfold seedAdmin
  split
  · exact ⟨rfl, rfl⟩
  · rw [List.countP_append, List.any_append]
    constructor
    · simp [Ne.symm hn]
    · simp [Ne.symm hn]

theorem foldPlayers_countP (hmac : String → String) (now : Int) (n : String) :
    ∀ (ps : List (String × String)) (st : Store),
    st.users.any (fun u => u.userName == n) = true →
    (ps.foldl (playerStep hmac now) st).users.countP (fun u => u.userName == n) =
      st.users.countP (fun u => u.userName == n) := by
  intro ps
  induction ps with
  | nil => intro st _; rfl
  | cons q qs ih =>
    intro st h
    rw [List.foldl_cons]
    by_cases hq : st.users.any (fun u => u.userName == q.1) = true
    · rw [playerStep_id_of_present hmac now st q hq]
      exact ih st h
    · have hstep : playerStep hmac now st q = { st with users := st.users ++
          [{ userName := q.1, isAdmin := false, passwordHash := none,
             keyHash := hmacKeyHash hmac q.2, createdAt := now }] } := by
        unfold playerStep
        rw [if_neg hq]
      by_cases hqn : q.1 = n
      · rw [hqn] at hq
        exact absurd h hq
      · rw [hstep]
        rw [ih _ (any_append_left _ h)]
        rw [List.countP_append]
        simp [hqn]

/-- The store for the C5 counterexample: a non-admin user whose `userName` is
"admin" already exists (and a session exists, so the session block is not in
play). -/
def c5Store : Store :=
  { users := [{ userName := "admin", isAdmin := false, passwordHash := none,
                keyHash := "h", createdAt := 0 }],
    sessions := [{ id := 1, startAt := 0, description := "", createdAt := 0 }],
    attempts := [],
    sessionCounter := some 1 }

/-- C5 (as stated, refuted): "users are created only if their userName does
not already exist" fails for the admin seed — on a store whose only user is a
non-admin named "admin", seeding inserts a second user with the already-taken
userName "admin" (the admin existence check is on `isAdmin ∧ userName`, not on
`userName` alone). -/
theorem C5_counterexample :
    c5Store.users.any (fun u => u.userName == "admin") = true ∧
    (ensureSeedData (fun _ => "h") 0 c5Store).users.countP
      (fun u => u.userName == "admin") = 2 := by
  exact ⟨rfl, by decide⟩

/-- C5 (corrected): seeding is idempotent — a second run (at any later time)
changes nothing; seed players are inserted only when their userName is absent,
and the session/attempt seed happens only when no session exists; but the
admin seed is inserted whenever no admin user named "admin" exists, even if a
non-admin user already holds that userName. -/
theorem C5_seed_idempotent (hmac : String → String) (now1 now2 : Int) (st : Store) :
    ensureSeedData hmac now2 (ensureSeedData hmac now1 st) = ensureSeedData hmac now1 st ∧
    (∀ p ∈ seedPlayers, st.users.any (fun u => u.userName == p.1) = true →
      (ensureSeedData hmac now1 st).users.countP (fun u => u.userName == p.1) =
        st.users.countP (fun u => u.userName == p.1)) ∧
    (st.sessions ≠ [] →
      (ensureSeedData hmac now1 st).sessions = st.sessions ∧
      (ensureSeedData hmac now1 st).attempts = st.attempts ∧
      (ensureSeedData hmac now1 st).sessionCounter = st.sessionCounter) ∧
    (st.users.any (fun u => u.isAdmin && u.userName == "admin") = false →
      ∃ l, (ensureSeedData hmac now1 st).users = st.users ++
        ({ userName := "admin", isAdmin := true, passwordHash := none,
           keyHash := hmacKeyHash hmac "admin", createdAt := now1 } :: l)) := by
  refine ⟨?_, ?_, ?_, ?_⟩
  · have hadm : (ensureSeedData hmac now1 st).users.any
        (fun u => u.isAdmin && u.userName == "admin") = true := by
      unfold ensureSeedData
      rw [seedSessions_users]
      exact foldPlayers_any_preserved hmac now1 _ seedPlayers _
        (seedAdmin_establishes hmac now1 st)
    have hplayers : ∀ p ∈ seedPlayers, (ensureSeedData hmac now1 st).users.any
        (fun u => u.userName == p.1) = true := by
      intro p hp
      unfold ensureSeedData
      rw [seedSessions_users]
      exact foldPlayers_establishes hmac now1 seedPlayers _ p hp
    have hsess : (ensureSeedData hmac now1 st).sessions ≠ [] := by
      unfold ensureSeedData
      exact seedSessions_nonempty now1 _
    show seedSessions now2 (seedPlayersStep hmac now2
      (seedAdmin hmac now2 (ensureSeedData hmac now1 st))) = ensureSeedData hmac now1 st
    rw [seedAdmin_id_of_present hmac now2 _ hadm]
    unfold seedPlayersStep
    rw [foldPlayers_id_of_present hmac now2 seedPlayers _ hplayers]
    exact seedSessions_id_of_nonempty now2 _ hsess
  · intro p hp hpres
    unfold ensureSeedData
    rw [seedSessions_users]
    have hne := seedPlayers_fst_ne_admin hp
    have hadm := seedAdmin_countP_ne hmac now1 st p.1 hne
    show (seedPlayers.foldl (playerStep hmac now1) (seedAdmin hmac now1 st)).users.countP
      (fun u => u.userName == p.1) = st.users.countP (fun u => u.userName == p.1)
    rw [foldPlayers_countP hmac now1 p.1 seedPlayers _ (by rw [hadm.2]; exact hpres)]
    exact hadm.1
  · intro hne
    have hsS : (seedPlayersStep hmac now1 (seedAdmin hmac now1 st)).sessions =
        st.sessions :=
      (foldPlayers_frame hmac now1 seedPlayers _).1.trans (seedAdmin_frame hmac now1 st).1
    have haS : (seedPlayersStep hmac now1 (seedAdmin hmac now1 st)).attempts =
        st.attempts :=
      (foldPlayers_frame hmac now1 seedPlayers _).2.1.trans (seedAdmin_frame hmac now1 st).2.1
    have hcS : (seedPlayersStep hmac now1 (seedAdmin hmac now1 st)).sessionCounter =
        st.sessionCounter :=
      (foldPlayers_frame hmac now1 seedPlayers _).2.2.trans (seedAdmin_frame hmac now1 st).2.2
    unfold ensureSeedData
    rw [seedSessions_id_of_nonempty now1 _ (by rw [hsS]; exact hne)]
    exact ⟨hsS, haS, hcS⟩
  · intro habs
    have hA : (seedAdmin hmac now1 st).users = st.users ++
        [{ userName := "admin", isAdmin := true, passwordHash := none,
           keyHash := hmacKeyHash hmac "admin", createdAt := now1 }] := by
      unfold seedAdmin
      rw [if_neg (by rw [habs]; exact Bool.false_ne_true)]
    obtain ⟨l2, h2⟩ := foldPlayers_users_extend hmac now1 seedPlayers (seedAdmin hmac now1 st)
    refine ⟨l2, ?_⟩
    unfold ensureSeedData
    rw [seedSessions_users]
    show (seedPlayers.foldl (playerStep hmac now1) (seedAdmin hmac now1 st)).users = _
    rw [h2, hA, List.append_assoc]
    rfl

/-- Witness for C5: running the seed twice from the empty store equals running
it once, and on `c5Store` (which already has a session) the session set is
unchanged. -/
theorem C5_seed_idempotent_witness :
    ensureSeedData (fun _ => "h") 0 (ensureSeedData (fun _ => "h") 0 emptyStore) =
      ensureSeedData (fun _ => "h") 0 emptyStore ∧
    (ensureSeedData (fun _ => "h") 0 c5Store).sessions = c5Store.sessions := by
  have t := C5_seed_idempotent (fun _ => "h") 0 0 emptyStore
  have t2 := C5_seed_idempotent (fun _ => "h") 0 0 c5Store
  exact ⟨t.1, (t2.2.2.1 (by decide)).1⟩

/-! Helper lemmas for the session-list rendering (C8). -/

/-- The UTC year of a time value. -/
def yearOf (t : Int) : Int := (utcParts t).1

/-- The spec's date field shape: `YYYY-MM-DD`. -/
def isDateShape (s : String) : Bool :=
  match s.data with
  | [c0, c1, c2, c3, c4, c5, c6, c7, c8, c9] =>
    c0.isDigit && c1.isDigit && c2.isDigit && c3.isDigit && (c4 == '-') &&
    c5.isDigit && c6.isDigit && (c7 == '-') && c8.isDigit && c9.isDigit
  | _ => false

/-- The spec's time field shape: `HH:MM`. -/
def isTimeShape (s : String) : Bool :=
  match s.data with
  | [c0, c1, c2, c3, c4] => c0.isDigit && c1.isDigit && (c2 == ':') && c3.isDigit && c4.isDigit
  | _ => false

/-- Modelled from the spec: the session timestamp "split into separate date
(`YYYY-MM-DD`) … fields in UTC" — the claim's intended date rendering of the
stored instant, to be compared with what the handler produces. -/
def renderDateUTC (t : Int) : String :=
  pad 4 (utcParts t).1.toNat ++ "-" ++ pad 2 (utcParts t).2.1.toNat ++ "-" ++
    pad 2 (utcParts t).2.2.1.toNat

/-- Modelled from the spec: the session timestamp's "time (`HH:MM`)" field in
UTC — the claim's intended time rendering of the stored instant. -/
def renderTimeUTC (t : Int) : String :=
  pad 2 (utcParts t).2.2.2.1.toNat ++ ":" ++ pad 2 (utcParts t).2.2.2.2.1.toNat

theorem civilFromDays_bounds (z : Int) :
    1 ≤ (civilFromDays z).2.1 ∧ (civilFromDays z).2.1 ≤ 12 ∧
    1 ≤ (civilFromDays z).2.2 ∧ (civilFromDays z).2.2 ≤ 31 := by
  unfold civilFromDays
  dsimp only
  split_ifs <;> omega

theorem utcParts_bounds (t : Int) :
    1 ≤ (utcParts t).2.1 ∧ (utcParts t).2.1 ≤ 12 ∧
    1 ≤ (utcParts t).2.2.1 ∧ (utcParts t).2.2.1 ≤ 31 ∧
    0 ≤ (utcParts t).2.2.2.1 ∧ (utcParts t).2.2.2.1 ≤ 23 ∧
    0 ≤ (utcParts t).2.2.2.2.1 ∧ (utcParts t).2.2.2.2.1 ≤ 59 := by
  have hc := civilFromDays_bounds (t / 86400000)
  refine ⟨hc.1, hc.2.1, hc.2.2.1, hc.2.2.2, ?_, ?_, ?_, ?_⟩
  · show (0 : Int) ≤ t % 86400000 / 3600000
    omega
  · show t % 86400000 / 3600000 ≤ 23
    omega
  · show (0 : Int) ≤ t % 86400000 / 60000 % 60
    omega
  · show t % 86400000 / 60000 % 60 ≤ 59
    omega

theorem pad_length (w n : Nat) : (pad w n).data.length = w := by
  simp [pad]

theorem digitChar_lt_ten_isDigit : ∀ m : Nat, m < 10 → (Nat.digitChar m).isDigit = true := by
  decide

theorem pad_all_digits (w n : Nat) : ∀ c ∈ (pad w n).data, c.isDigit = true := by
  intro c hc
  unfold pad at hc
  rcases List.mem_map.1 hc with ⟨i, _, rfl⟩
  exact digitChar_lt_ten_isDigit _ (Nat.mod_lt _ (by norm_num))

theorem list_len2 {α : Type} {l : List α} (h : l.length = 2) : ∃ a b, l = [a, b] := by
  match l, h with
  | [a, b], _ => exact ⟨a, b, rfl⟩

theorem list_len4 {α : Type} {l : List α} (h : l.length = 4) : ∃ a b c d, l = [a, b, c, d] := by
  match l, h with
  | [a, b, c, d], _ => exact ⟨a, b, c, d, rfl⟩

theorem toISOString_slices (t : Int) (h0 : 0 ≤ (utcParts t).1)
    (h1 : (utcParts t).1 ≤ 9999) :
    jsSlice (toISOString t) 0 10 = renderDateUTC t ∧
    isDateShape (jsSlice (toISOString t) 0 10) = true ∧
    jsSlice (toISOString t) 11 16 = renderTimeUTC t ∧
    isTimeShape (jsSlice (toISOString t) 11 16) = true := by
  obtain ⟨y1, y2, y3, y4, hY⟩ := list_len4 (pad_length 4 (utcParts t).1.toNat)
  obtain ⟨m1, m2, hM⟩ := list_len2 (pad_length 2 (utcParts t).2.1.toNat)
  obtain ⟨d1, d2, hD⟩ := list_len2 (pad_length 2 (utcParts t).2.2.1.toNat)
  obtain ⟨a1, a2, hH⟩ := list_len2 (pad_length 2 (utcParts t).2.2.2.1.toNat)
  obtain ⟨b1, b2, hMI⟩ := list_len2 (pad_length 2 (utcParts t).2.2.2.2.1.toNat)
  have hdY := pad_all_digits 4 (utcParts t).1.toNat
  have hdM := pad_all_digits 2 (utcParts t).2.1.toNat
  have hdD := pad_all_digits 2 (utcParts t).2.2.1.toNat
  have hdH := pad_all_digits 2 (utcParts t).2.2.2.1.toNat
  have hdMI := pad_all_digits 2 (utcParts t).2.2.2.2.1.toNat
  rw [hY] at hdY
  rw [hM] at hdM
  rw [hD] at hdD
  rw [hH] at hdH
  rw [hMI] at hdMI
  have hyear : isoYearString (utcParts t).1 = pad 4 (utcParts t).1.toNat := by
    unfold isoYearString
    rw [if_neg (by omega), if_pos h1]
  have hflat : (toISOString t).data =
      (isoYearString (utcParts t).1).data ++ ['-'] ++ (pad 2 (utcParts t).2.1.toNat).data ++
      ['-'] ++ (pad 2 (utcParts t).2.2.1.toNat).data ++ ['T'] ++
      (pad 2 (utcParts t).2.2.2.1.toNat).data ++ [':'] ++
      (pad 2 (utcParts t).2.2.2.2.1.toNat).data ++ [':'] ++
      (pad 2 (utcParts t).2.2.2.2.2.1.toNat).data ++ ['.'] ++
      (pad 3 (utcParts t).2.2.2.2.2.2.toNat).data ++ ['Z'] := rfl
  rw [hyear, hY, hM, hD, hH, hMI] at hflat
  have hslice1 : jsSlice (toISOString t) 0 10 =
      ⟨[y1, y2, y3, y4, '-', m1, m2, '-', d1, d2]⟩ := by
    show (⟨((toISOString t).data.drop 0).take 10⟩ : String) = _
    rw [hflat]
    rfl
  have hslice2 : jsSlice (toISOString t) 11 16 = ⟨[a1, a2, ':', b1, b2]⟩ := by
    show (⟨((toISOString t).data.drop 11).take 5⟩ : String) = _
    rw [hflat]
    rfl
  have hrd : renderDateUTC t = ⟨[y1, y2, y3, y4, '-', m1, m2, '-', d1, d2]⟩ := by
    apply string_eq_of_toList_eq
    show (pad 4 (utcParts t).1.toNat).data ++ ['-'] ++ (pad 2 (utcParts t).2.1.toNat).data ++
      ['-'] ++ (pad 2 (utcParts t).2.2.1.toNat).data = _
    rw [hY, hM, hD]
    rfl
  have hrt : renderTimeUTC t = ⟨[a1, a2, ':', b1, b2]⟩ := by
    apply string_eq_of_toList_eq
    show (pad 2 (utcParts t).2.2.2.1.toNat).data ++ [':'] ++
      (pad 2 (utcParts t).2.2.2.2.1.toNat).data = _
    rw [hH, hMI]
    rfl
  refine ⟨hslice1.trans hrd.symm, ?_, hslice2.trans hrt.symm, ?_⟩
  · rw [hslice1]
    simp [isDateShape, hdY y1 (by simp), hdY y2 (by simp), hdY y3 (by simp),
      hdY y4 (by simp), hdM m1 (by simp), hdM m2 (by simp), hdD d1 (by simp),
      hdD d2 (by simp)]
  · rw [hslice2]
    simp [isTimeShape, hdH a1 (by simp), hdH a2 (by simp), hdMI b1 (by simp),
      hdMI b2 (by simp)]

/-- The store for the C8 counterexample: one session whose `startAt` is
+010000-01-01T00:00:00Z (the first instant of year 10000). -/
def c8Store : Store :=
  { users := [],
    sessions := [{ id := 1, startAt := 253402300800000, description := "", createdAt := 0 }],
    attempts := [],
    sessionCounter := none }

/-- C8 (as stated, refuted): for a stored session in year 10000,
`toISOString` uses the expanded `+YYYYYY` year form, so `slice(0,10)` yields
"+010000-01" and `slice(11,16)` yields "01T00" — neither of the claimed
YYYY-MM-DD / HH:MM shapes. -/
theorem C8_counterexample :
    listSessionsRoute c8Store { userName := "u", role := "player" } =
      .ok 200 [{ id := 1, startDate := "+010000-01", startTime := "01T00",
                 description := "" }] ∧
    isDateShape "+010000-01" = false ∧
    isTimeShape "01T00" = false := by
  exact ⟨by decide, by decide, by decide⟩

/-- C8 (corrected): for any authenticated caller, GET /api/sessions responds
200 with all stored sessions in an order sorted by `startAt` descending, each
rendered by splitting `toISOString` of its `startAt`; for every session whose
UTC year lies in 0..9999 (where `toISOString` uses the four-digit year form)
the date field is the UTC `YYYY-MM-DD` and the time field the UTC `HH:MM` of
the stored instant. -/
theorem C8_list_sessions (st : Store) (user : AuthUser) :
    ∃ l : List Session,
      List.Perm l st.sessions ∧
      l.Pairwise (fun a b => b.startAt ≤ a.startAt) ∧
      listSessionsRoute st user = .ok 200 (l.map sessionView) ∧
      ∀ s ∈ l, 0 ≤ yearOf s.startAt → yearOf s.startAt ≤ 9999 →
        (sessionView s).startDate = renderDateUTC s.startAt ∧
        isDateShape (sessionView s).startDate = true ∧
        (sessionView s).startTime = renderTimeUTC s.startAt ∧
        isTimeShape (sessionView s).startTime = true := by
  refine ⟨List.insertionSort sessionDescLe st.sessions,
    List.perm_insertionSort _ _,
    (List.sorted_insertionSort sessionDescLe st.sessions).imp (fun h => h), rfl, ?_⟩
  intro s _ hy0 hy1
  have hs := toISOString_slices s.startAt hy0 hy1
  exact ⟨hs.1, hs.2.1, hs.2.2.1, hs.2.2.2⟩

/-- The store for the C8 witness: one session at 2024-01-05T12:30Z. -/
def c8WitnessStore : Store :=
  { users := [],
    sessions := [{ id := 1, startAt := 1704457800000, description := "", createdAt := 0 }],
    attempts := [],
    sessionCounter := none }

/-- Witness for C8 at a concrete store: the inner year hypotheses are
discharged for the session at 2024-01-05T12:30Z, whose rendition has the
claimed shapes. -/
theorem C8_list_sessions_witness :
    ∃ l : List Session,
      List.Perm l c8WitnessStore.sessions ∧
      listSessionsRoute c8WitnessStore { userName := "u", role := "player" } =
        .ok 200 (l.map sessionView) ∧
      ∀ s ∈ l, (sessionView s).startDate = renderDateUTC s.startAt ∧
        isDateShape (sessionView s).startDate = true := by
  obtain ⟨l, hp, _, hr, hshape⟩ :=
    C8_list_sessions c8WitnessStore { userName := "u", role := "player" }
  refine ⟨l, hp, hr, ?_⟩
  intro s hsl
  have hmem : s ∈ c8WitnessStore.sessions := hp.subset hsl
  have hs : s = { id := 1, startAt := 1704457800000, description := "", createdAt := 0 } := by
    simpa [c8WitnessStore] using hmem
  have hres := hshape s hsl (by rw [hs]; decide) (by rw [hs]; decide)
  exact ⟨hres.1, hres.2.1⟩

end SiteBack
